import Mathlib

/-!
# Julia-set renderer (`mpi_serial/fractalmpiserial.c`)

A shallow embedding of the three functions of the program:

* `compute_julia_pixel` : the per-pixel renderer (bounds check, escape-time
  loop, colouring);
* `write_bmp_header`    : the 54-byte bitmap header;
* `main`                : the row partition, the render loop that fills
  `pixel_array`, and the assembly of the output.

C `int` values are `Int`, and the result of an `int` operation that can leave
the 32-bit range is reduced to it with `wrap_int` (`to_uint`, `to_size_t` for
the unsigned types).  The partition of lines 109-114 is written without
reduction: for `0 <= rank < size` all its values lie between 0 and `altura`.
A store outside the allocated `pixel_array` stops the run: the state records
it as a fault and changes no more.  Bytes are `Nat` values below 256.
Floating point is not interpreted: the renderer is parameterised by a
`FloatModel` that supplies the arithmetic.
-/

namespace Fractal

/-! ## C integer arithmetic -/

/-- C integer division `a / b` (truncation towards zero). -/
def c_div (a b : Int) : Int := Int.tdiv a b

/-- C remainder `a % b` (sign of the dividend). -/
def c_mod (a b : Int) : Int := Int.tmod a b

/-- Result of an arithmetic operation of type `int`: the value reduced to the
32-bit two's-complement range. -/
def wrap_int (z : Int) : Int := (z + 2147483648) % 4294967296 - 2147483648

/-- Conversion to `unsigned int`: the value modulo `2^32`. -/
def to_uint (z : Int) : Int := z % 4294967296

/-- Conversion to `size_t` (64 bits): the value modulo `2^64`. -/
def to_size_t (z : Int) : Int := z % 18446744073709551616

/-! ## The row partition of `main` (lines 109-116) -/

/-- Line 109: `chunk_size = altura / size`. -/
def chunk_size (altura size : Int) : Int := c_div altura size

/-- Line 110: `remainder = altura % size`. -/
def remainder (altura size : Int) : Int := c_mod altura size

/-- Line 113: `start = chunk_size * rank + (rank < remainder ? rank : remainder)`. -/
def start (altura size rank : Int) : Int :=
  chunk_size altura size * rank +
    (if rank < remainder altura size then rank else remainder altura size)

/-- Line 114: `end = start + chunk_size + (rank < remainder ? 1 : 0)`. -/
def end_ (altura size rank : Int) : Int :=
  start altura size rank + chunk_size altura size +
    (if rank < remainder altura size then 1 else 0)

/-- Line 116: `area = (end - start) * largura * 3`, each `int` operation
reduced to 32 bits. -/
def area (largura start end_ : Int) : Int :=
  wrap_int (wrap_int (wrap_int (end_ - start) * largura) * 3)

/-! ## Floating point

The renderer uses `float` and `double` arithmetic and `pow`.  These are taken
as parameters; what is kept of them is which operation is applied to which
operands, in the order of the source. -/

/-- The floating-point operations used by `compute_julia_pixel`. -/
structure FloatModel where
  /-- Values of type `float`. -/
  F : Type
  /-- Values of type `double`. -/
  D : Type
  /-- Decimal literal `m * 10^(-e)` of type `double` (`1.6` is `dlit 16 1`). -/
  dlit : Int → Nat → D
  /-- Conversion `double → float`. -/
  toF : D → F
  /-- Promotion `float → double`. -/
  toD : F → D
  /-- Conversion `int → float`. -/
  ofInt : Int → F
  /-- Conversion `int → double`. -/
  dOfInt : Int → D
  add : F → F → F
  sub : F → F → F
  mul : F → F → F
  div : F → F → F
  lt : F → F → Bool
  dmul : D → D → D
  dsub : D → D → D
  pow : D → D → D
  /-- Conversion `double → unsigned char`. -/
  toUChar : D → Nat
  toUChar_lt : ∀ d, toUChar d < 256
  toUChar_dOfInt : ∀ n : Int, 0 ≤ n → n < 256 → toUChar (dOfInt n) = n.toNat

/-- Multiplication of two fixed-point numbers with 16 fractional bits. -/
def fx_mul (a b : Int) : Int := Int.tdiv (a * b) 65536

/-- Power with the exponent truncated to a natural number, fixed point. -/
def fx_pow (b e : Int) : Int := (fx_mul b)^[(Int.tdiv e 65536).toNat] 65536

/-- A computable instance: 16.16 fixed-point numbers for both `float` and
`double`, with truncating operations.  It serves to run the embedding on
concrete inputs. -/
def fixed16 : FloatModel where
  F := Int
  D := Int
  dlit m e := Int.tdiv (m * 65536) (10 ^ e)
  toF d := d
  toD x := x
  ofInt n := n * 65536
  dOfInt n := n * 65536
  add a b := a + b
  sub a b := a - b
  mul := fx_mul
  div a b := Int.tdiv (a * 65536) b
  lt a b := decide (a < b)
  dmul := fx_mul
  dsub a b := a - b
  pow := fx_pow
  toUChar d := (Int.tdiv d 65536 % 256).toNat
  toUChar_lt d := by
    show (Int.tdiv d 65536 % 256).toNat < 256
    have h1 : (0 : Int) ≤ Int.tdiv d 65536 % 256 := Int.emod_nonneg _ (by decide)
    have h2 : Int.tdiv d 65536 % 256 < 256 := Int.emod_lt_of_pos _ (by decide)
    omega
  toUChar_dOfInt n h0 h1 := by
    have h : Int.tdiv (n * 65536) 65536 = n := Int.mul_tdiv_cancel n (by decide)
    show (Int.tdiv (n * 65536) 65536 % 256).toNat = n.toNat
    rw [h, Int.emod_eq_of_lt h0 h1]

/-! ## `compute_julia_pixel` (lines 9-41) -/

/-- The three bytes of the `rgb` buffer. -/
structure Rgb where
  c0 : Nat
  c1 : Nat
  c2 : Nat
deriving DecidableEq

/-- Channel `c` of an `rgb` buffer (`rgb[c]`). -/
def Rgb.chan (p : Rgb) (c : Nat) : Nat :=
  if c = 0 then p.c0 else if c = 1 then p.c1 else p.c2

/-- The three bytes in memory order. -/
def Rgb.bytes (p : Rgb) : List Nat := [p.c0, p.c1, p.c2]

/-- Arguments of the diagnostic printed on `stderr` at line 12. -/
structure Diag where
  x : Int
  y : Int
  largura : Int
  altura : Int
deriving DecidableEq

/-- Effect of one call of `compute_julia_pixel`: the returned code, the content
of `rgb` after the call and the diagnostics printed. -/
structure PixelCall where
  ret : Int
  rgb : Rgb
  diag : List Diag
deriving DecidableEq

/-- Lines 27-32: the escape-time loop.  The first argument is `num_iter`;
the result is the value of `num_iter` when the loop stops. -/
def julia_loop (fm : FloatModel) (julia_real julia_img : fm.F) :
    Nat → fm.F → fm.F → Nat
  | 0, _, _ => 0
  | n + 1, real, img =>
    if fm.lt (fm.add (fm.mul img img) (fm.mul real real)) (fm.ofInt (2 * 2)) then
      let xtemp := fm.add (fm.sub (fm.mul img img) (fm.mul real real)) julia_real
      let real' := fm.add (fm.mul (fm.mul (fm.ofInt 2) img) real) julia_img
      julia_loop fm julia_real julia_img n real' xtemp
    else n + 1

/-- Lines 16-32: the value of `num_iter` after the loop, for pixel `(x, y)`. -/
def julia_iter (fm : FloatModel) (x y largura altura : Int) : Nat :=
  let X_MIN := fm.toF (fm.dlit (-16) 1)
  let X_MAX := fm.toF (fm.dlit 16 1)
  let Y_MIN := fm.toF (fm.dlit (-9) 1)
  let Y_MAX := fm.toF (fm.dlit 9 1)
  let float_y := fm.add (fm.div (fm.mul (fm.sub Y_MAX Y_MIN) (fm.ofInt y)) (fm.ofInt altura)) Y_MIN
  let float_x := fm.add (fm.div (fm.mul (fm.sub X_MAX X_MIN) (fm.ofInt x)) (fm.ofInt largura)) X_MIN
  let julia_real := fm.toF (fm.dlit (-79) 2)
  let julia_img := fm.toF (fm.dlit 15 2)
  let max_iter := 300
  julia_loop fm julia_real julia_img max_iter float_y float_x

/-- Lines 35-38: the colour painted for a final `num_iter`. -/
def paint (fm : FloatModel) (tint_bias : fm.F) (num_iter : Nat) : Rgb :=
  let max_iter : Int := 300
  let color_bias := fm.div (fm.ofInt num_iter) (fm.ofInt max_iter)
  { c0 := fm.toUChar (if num_iter = 0 then fm.dOfInt 200 else
      fm.dmul (fm.dmul (fm.dlit (-5000) 1) (fm.pow (fm.toD tint_bias) (fm.dlit 12 1)))
        (fm.pow (fm.toD color_bias) (fm.dlit 16 1)))
    c1 := fm.toUChar (if num_iter = 0 then fm.dOfInt 100 else
      fm.dmul (fm.dlit (-2550) 1) (fm.pow (fm.toD color_bias) (fm.dlit 3 1)))
    c2 := fm.toUChar (if num_iter = 0 then fm.dOfInt 100 else
      fm.dsub (fm.dOfInt 255)
        (fm.dmul (fm.dmul (fm.dlit 2550 1) (fm.pow (fm.toD tint_bias) (fm.dlit 12 1)))
          (fm.pow (fm.toD color_bias) (fm.dlit 30 1)))) }

/-- The function `compute_julia_pixel`; `rgb` is the content of the buffer
before the call. -/
def compute_julia_pixel (fm : FloatModel) (x y largura altura : Int)
    (tint_bias : fm.F) (rgb : Rgb) : PixelCall :=
  if x < 0 ∨ x ≥ largura ∨ y < 0 ∨ y ≥ altura then
    { ret := -1, rgb := rgb, diag := [⟨x, y, largura, altura⟩] }
  else
    { ret := 0, rgb := paint fm tint_bias (julia_iter fm x y largura altura), diag := [] }

/-! ## The render loop of `main` (lines 116-130) -/

/-- The variables the render loop reads and writes, what it has printed on
`stderr`, and whether a store has fallen outside the allocated `pixel_array`
(`fault`); after a fault the run has stopped and the state stays as it is. -/
structure RenderState where
  pixel_array : List Nat
  local_i : Int
  rgb : Rgb
  stderr : List Diag
  fault : Bool
deriving DecidableEq

/-- The statement `pixel_array[local_i++] = v`.  The store is made when
`local_i` indexes an allocated byte; otherwise it is a fault. -/
def store (st : RenderState) (v : Nat) : RenderState :=
  if st.fault = false ∧ 0 ≤ st.local_i ∧ st.local_i < st.pixel_array.length then
    { st with pixel_array := st.pixel_array.set st.local_i.toNat v
              local_i := wrap_int (st.local_i + 1) }
  else { st with fault := true }

/-- Lines 125-128, the body of the inner loop for row `i` and counter `j`:
the call of `compute_julia_pixel` (its return value is not used) and the three
stores.  Nothing happens once the run has stopped on a fault. -/
def pixel_body (fm : FloatModel) (largura altura i j : Int) (st : RenderState) : RenderState :=
  if st.fault then st
  else
    let call := compute_julia_pixel fm (c_div j 3) i largura altura (fm.toF (fm.dlit 10 1)) st.rgb
    let st1 := { st with rgb := call.rgb, stderr := st.stderr ++ call.diag }
    store (store (store st1 call.rgb.c0) call.rgb.c1) call.rgb.c2

/-- Line 124: `for (int j = ...; j < largura * 3; j += 3)`, from the current
value of `j`.  The bound `largura * 3` is an `int` product.  An increment
`j += 3` that would leave the `int` range is undefined in C and is recorded
as a fault. -/
def col_loop (fm : FloatModel) (largura altura i : Int) (j : Int) (st : RenderState) :
    RenderState :=
  if h : j < wrap_int (largura * 3) then
    if j + 3 ≤ 2147483647 then
      col_loop fm largura altura i (j + 3) (pixel_body fm largura altura i j st)
    else { pixel_body fm largura altura i j st with fault := true }
  else st
termination_by (wrap_int (largura * 3) - j).toNat
decreasing_by omega

/-- Line 123: `for (int i = ...; i < end; i++)`, from the current value of `i`
(`i + 1 <= end`, so the increment stays in the `int` range). -/
def row_loop (fm : FloatModel) (largura altura end_ : Int) (i : Int) (st : RenderState) :
    RenderState :=
  if h : i < end_ then
    row_loop fm largura altura end_ (i + 1) (col_loop fm largura altura i 0 st)
  else st
termination_by (end_ - i).toNat
decreasing_by omega

/-- Lines 116-130 for a row range `[start, end_)`: `pixel_array` and `rgb` are
allocated zeroed by `calloc`, `local_i` is 0, then the two loops run.  For a
negative `area` the size passed to `calloc` is out of reach, the allocation
fails and no byte of `pixel_array` can be stored: the array is empty. -/
def render_block (fm : FloatModel) (largura altura start end_ : Int) : RenderState :=
  row_loop fm largura altura end_ start
    { pixel_array := List.replicate (area largura start end_).toNat 0
      local_i := 0
      rgb := ⟨0, 0, 0⟩
      stderr := []
      fault := false }

/-- Lines 106-130 of `main` in the process `rank` of `size`, for the height
`altura` read from the command line; `largura = 2 * altura` is an `int`
product. -/
def main_render (fm : FloatModel) (altura rank size : Int) : RenderState :=
  render_block fm (wrap_int (2 * altura)) altura (start altura size rank)
    (end_ altura size rank)

/-- What one process has done when `main` returns at line 155. -/
structure WorkerRun where
  /-- Value returned by `main`. -/
  exit_status : Int
  /-- The `area` bytes of `pixel_array` passed to `MPI_File_write_ordered`. -/
  written : List Nat
  stderr : List Diag
deriving DecidableEq

/-- Lines 116-155 for a row range: the render loop, the collective write of
`area` bytes of `pixel_array`, and `return 0`; `none` when the loop has
stopped on a fault, where the run has no defined result. -/
def run_range (fm : FloatModel) (largura altura start end_ : Int) : Option WorkerRun :=
  let st := render_block fm largura altura start end_
  if st.fault then none
  else some
    { exit_status := 0
      written := st.pixel_array.take (area largura start end_).toNat
      stderr := st.stderr }

/-! ## `write_bmp_header` (lines 43-84) -/

/-- An output stream: the bytes it has accepted so far, in its buffer or on
the device, and the number of bytes it still accepts before a write fails
(the free part of its buffer and what the device takes). -/
structure FILE where
  bytes : List Nat
  room : Nat
deriving DecidableEq

/-- The number of whole objects among the first `n` bytes of `objs`. -/
def objects_within : List (List Nat) → Nat → Nat
  | [], _ => 0
  | o :: rest, n => if o.length ≤ n then objects_within rest (n - o.length) + 1 else 0

/-- The call `fwrite(ptr, size, count, f)`, given the byte representation of each of the
`count` objects: the bytes of the objects are written in order as far as the
stream accepts them, so an object that does not fit leaves its first bytes;
the result is the number of objects written whole and the stream
afterwards. -/
def fwrite (objs : List (List Nat)) (f : FILE) : Nat × FILE :=
  (objects_within objs f.room,
    { bytes := f.bytes ++ objs.flatten.take f.room, room := f.room - objs.flatten.length })

/-- The `n` bytes of the two's-complement representation of `v`, least
significant byte first. -/
def le_bytes (n : Nat) (v : Int) : List Nat :=
  (List.range n).map (fun k => (v / 256 ^ k % 256).toNat)

/-- Lines 44-45: `row_size_in_bytes`, an `unsigned int` initialised from an
`int` expression. -/
def row_size_in_bytes (largura : Int) : Int :=
  let w3 := wrap_int (largura * 3)
  to_uint (wrap_int (w3 + (if c_mod w3 4 = 0 then 0 else wrap_int (4 - c_mod w3 4))))

/-- Line 49: `filesize = 54 + (int)(row_size_in_bytes * altura * sizeof(char))`.
The first product is `unsigned int`, the second `size_t`, the sum `int`. -/
def filesize (largura altura : Int) : Int :=
  let prod := to_uint (row_size_in_bytes largura * to_uint altura)
  to_uint (wrap_int (54 + wrap_int (to_size_t (prod * 1))))

/-- Line 57: `image_size = largura * altura * 3 * sizeof(char)`.  The first two
products are `int`, the last `size_t`. -/
def image_size (largura altura : Int) : Int :=
  let prod := wrap_int (wrap_int (largura * altura) * 3)
  to_uint (to_size_t (to_size_t prod * 1))

/-- The statement `ret += fwrite(ptr, size, count, f)` on the pair of `ret`
and the stream. -/
def add_fwrite (s : Nat × FILE) (objs : List (List Nat)) : Nat × FILE :=
  let r := fwrite objs s.2
  (s.1 + r.1, r.2)

/-- Lines 48-61 and 66-80: the objects passed to the fifteen `fwrite` calls, in
the order of the calls. -/
def fwrite_calls (largura altura : Int) : List (List (List Nat)) :=
  let id : List (List Nat) := [[66], [77]]
  let reserved : List (List Nat) := [le_bytes 2 0, le_bytes 2 0]
  let offset : Int := 54
  let size : Int := 40
  let planes : Int := 1
  let bits : Int := 24
  let compression : Int := 0
  let x_res : Int := 0
  let y_res : Int := 0
  let ncolors : Int := 0
  let importantcolors : Int := 0
  [ id,
    [le_bytes 4 (filesize largura altura)],
    reserved,
    [le_bytes 4 offset],
    [le_bytes 4 size],
    [le_bytes 4 largura],
    [le_bytes 4 altura],
    [le_bytes 2 planes],
    [le_bytes 2 bits],
    [le_bytes 4 compression],
    [le_bytes 4 (image_size largura altura)],
    [le_bytes 4 x_res],
    [le_bytes 4 y_res],
    [le_bytes 4 ncolors],
    [le_bytes 4 importantcolors] ]

/-- The function `write_bmp_header`: the returned value and the stream
afterwards.  `ret` starts at 0, each call adds its result (lines 65-80), and
line 83 returns `ret != 17`. -/
def write_bmp_header (f : FILE) (largura altura : Int) : Int × FILE :=
  let s := List.foldl add_fwrite (0, f) (fwrite_calls largura altura)
  (if s.1 ≠ 17 then 1 else 0, s.2)

/-- An empty stream opened for writing that accepts `room` bytes. -/
def fopen_w (room : Nat) : FILE := { bytes := [], room := room }

/-- The size of the buffer `fopen` gives a stream (the C standard asks for at
least 256). -/
def BUFSIZ : Nat := 256

/-- The stream a successful `fopen(OUTFILE, "w")` returns: empty and fully
buffered, it accepts the `BUFSIZ` bytes of its buffer and then what the
device has room for. -/
def fopen (device_room : Nat) : FILE := fopen_w (BUFSIZ + device_room)

/-- The bytes a process hands to the collective write; none when its run has
stopped on a fault. -/
def written_bytes (fm : FloatModel) (largura altura start end_ : Int) : List Nat :=
  match run_range fm largura altura start end_ with
  | some run => run.written
  | none => []

/-- The output as lines 135-149 assemble it for `size` processes: the header
written by rank 0, then the buffers of ranks `0 .. size-1` in rank order. -/
def assembled_output (fm : FloatModel) (altura size : Int) (room : Nat) : List Nat :=
  (write_bmp_header (fopen_w room) (wrap_int (2 * altura)) altura).2.bytes ++
    (List.range size.toNat).flatMap (fun r =>
      written_bytes fm (wrap_int (2 * altura)) altura (start altura size r)
        (end_ altura size r))

/-! ## Reference notions used in the statements -/

/-- A row length `n` rounded up to a multiple of 4. -/
def round_up4 (n : Int) : Int := (n + 3) / 4 * 4

/-- The little-endian value of the `n` bytes of `bs` at offset `off`. -/
def read_le (bs : List Nat) (off n : Nat) : Nat :=
  ((bs.drop off).take n).foldr (fun b acc => b + 256 * acc) 0

/-- The three bytes of pixel `(x, y)` as the render loop obtains them for an
in-range coordinate. -/
def pixel_bytes (fm : FloatModel) (largura altura x y : Int) : List Nat :=
  (compute_julia_pixel fm x y largura altura (fm.toF (fm.dlit 10 1)) ⟨0, 0, 0⟩).rgb.bytes

/-- The bytes of row `y`: pixels `x = 0 .. largura-1` in ascending order. -/
def row_bytes (fm : FloatModel) (largura altura y : Int) : List Nat :=
  (List.range largura.toNat).flatMap (fun x => pixel_bytes fm largura altura x y)

/-- The bytes of rows `start .. end_-1` in ascending order. -/
def block_bytes (fm : FloatModel) (largura altura start end_ : Int) : List Nat :=
  (List.range (end_ - start).toNat).flatMap (fun k => row_bytes fm largura altura (start + k))

/-! ## Notions used in the proofs -/

/-- The row of pixels of `col_loop` as a fold over the columns. -/
def fold_cols (fm : FloatModel) (largura altura i : Int) (st : RenderState) : RenderState :=
  (List.range' 0 largura.toNat).foldl
    (fun s (x : Nat) => pixel_body fm largura altura i (3 * (x : Int)) s) st

/-- The run has not stopped, it has filled `pixel_array` up to `local_i` with
`pre`, and `n` zero bytes follow; the size of the array is an `int`. -/
def Shaped (st : RenderState) (pre : List Nat) (n : Nat) : Prop :=
  st.pixel_array = pre ++ List.replicate n 0 ∧ st.local_i = pre.length ∧
    st.fault = false ∧ pre.length + n ≤ 2147483647

/-- The 54 bytes of the header in the order of the fields. -/
def header_bytes (largura altura : Int) : List Nat :=
  [66, 77] ++ le_bytes 4 (filesize largura altura) ++ [0, 0, 0, 0] ++ le_bytes 4 54 ++
    le_bytes 4 40 ++ le_bytes 4 largura ++ le_bytes 4 altura ++ le_bytes 2 1 ++
    le_bytes 2 24 ++ le_bytes 4 0 ++ le_bytes 4 (image_size largura altura) ++
    le_bytes 4 0 ++ le_bytes 4 0 ++ le_bytes 4 0 ++ le_bytes 4 0

/-- Row `y` lies outside the image of height `altura`. -/
def bad_row (altura y : Int) : Bool := decide (y < 0 ∨ altura ≤ y)

/-! ## The escape-time loop, one iteration at a time -/

/-- Lines 16-18 and 25: the values of `(real, img)` before the loop, for pixel
`(x, y)`. -/
def julia_start (fm : FloatModel) (x y largura altura : Int) : fm.F × fm.F :=
  let X_MIN := fm.toF (fm.dlit (-16) 1)
  let X_MAX := fm.toF (fm.dlit 16 1)
  let Y_MIN := fm.toF (fm.dlit (-9) 1)
  let Y_MAX := fm.toF (fm.dlit 9 1)
  let float_y := fm.add (fm.div (fm.mul (fm.sub Y_MAX Y_MIN) (fm.ofInt y)) (fm.ofInt altura)) Y_MIN
  let float_x := fm.add (fm.div (fm.mul (fm.sub X_MAX X_MIN) (fm.ofInt x)) (fm.ofInt largura)) X_MIN
  (float_y, float_x)

/-- Line 27: the test `img * img + real * real < 2 * 2` on `(real, img)`. -/
def julia_test (fm : FloatModel) (z : fm.F × fm.F) : Bool :=
  fm.lt (fm.add (fm.mul z.2 z.2) (fm.mul z.1 z.1)) (fm.ofInt (2 * 2))

/-- Lines 28-30: the new `(real, img)` after one run of the loop body. -/
def julia_step (fm : FloatModel) (julia_real julia_img : fm.F) (z : fm.F × fm.F) :
    fm.F × fm.F :=
  let xtemp := fm.add (fm.sub (fm.mul z.2 z.2) (fm.mul z.1 z.1)) julia_real
  (fm.add (fm.mul (fm.mul (fm.ofInt 2) z.2) z.1) julia_img, xtemp)

/-! ## `main` (lines 86-156) -/

/-- The function `isspace` of the C locale. -/
def is_space (c : Char) : Bool := c.toNat = 32 || (9 ≤ c.toNat && c.toNat ≤ 13)

/-- The decimal digits at the head of a string, accumulated onto `acc`. -/
def atoi_digits : List Char → Int → Int
  | [], acc => acc
  | c :: cs, acc =>
    if 48 ≤ c.toNat ∧ c.toNat ≤ 57 then atoi_digits cs (acc * 10 + ((c.toNat : Int) - 48))
    else acc

/-- The number a string denotes: white space, an optional sign, then decimal
digits up to the first other character; 0 when there is no digit. -/
def decimal_value (s : String) : Int :=
  match s.toList.dropWhile is_space with
  | [] => 0
  | c :: cs =>
    if c.toNat = 45 then -atoi_digits cs 0
    else if c.toNat = 43 then atoi_digits cs 0
    else atoi_digits (c :: cs) 0

/-- The library function `atoi`, which is `(int) strtol(s, NULL, 10)`: the
number the string denotes, held to the range of `long` (64 bits), then
converted to `int`. -/
def atoi (s : String) : Int :=
  wrap_int (max (-9223372036854775808) (min (decimal_value s) 9223372036854775807))

/-- What one process has done when `main` returns. -/
structure MainRun where
  /-- Value returned by `main`. -/
  exit_status : Int
  /-- Line 92 has printed the message asking for a positive `N`. -/
  usage : Bool
  /-- The state after the render loop (line 130), when it was reached. -/
  render : Option RenderState
  /-- Rank 0, line 139: the value `write_bmp_header` returned, which `main`
  does not read, and the header stream afterwards. -/
  header : Option (Int × FILE)
  /-- Line 147: the bytes passed to `MPI_File_write_ordered`, when reached. -/
  written : Option (List Nat)
deriving DecidableEq

/-- The function `main` in the process `rank` of `size`, for the command line
`argv` (`argc` is its length) and the answer `fopen_result` of
`fopen(OUTFILE, "w")`: `none` is the null pointer, `some d` a stream on a
device with `d` bytes free.  `rank` and `size` are the values MPI reports,
with `0 <= rank < size`.  The result `none` stands for a run without a
defined result: the render loop has stopped on a fault, or rank 0 passes a
null stream to `fwrite`. -/
def main (fm : FloatModel) (argv : List String) (rank size : Int)
    (fopen_result : Option Nat) : Option MainRun :=
  let early : MainRun :=
    { exit_status := -1, usage := true, render := none, header := none, written := none }
  match argv with
  | _ :: arg1 :: _ =>
    if atoi arg1 < 1 then some early
    else
      let altura := atoi arg1
      let largura := wrap_int (2 * altura)
      let start := start altura size rank
      let end_ := end_ altura size rank
      let area := area largura start end_
      let st := render_block fm largura altura start end_
      let written := st.pixel_array.take area.toNat
      if st.fault then none
      else if rank = 0 then
        match fopen_result with
        | none => none
        | some device_room =>
          some { exit_status := 0, usage := false, render := some st
                 header := some (write_bmp_header (fopen device_room) largura altura)
                 written := some written }
      else
        some { exit_status := 0, usage := false, render := some st, header := none
               written := some written }
  | _ => some early

/-! ## `area` in 32-bit arithmetic -/

/-- Lines 107-116 with the result of every `int` operation reduced to 32 bits:
the value of `area` in the process `rank` of `size`. -/
def area_int32 (altura size rank : Int) : Int :=
  let largura := wrap_int (2 * altura)
  let chunk_size := wrap_int (c_div altura size)
  let remainder := c_mod altura size
  let start := wrap_int (wrap_int (chunk_size * rank) +
    (if rank < remainder then rank else remainder))
  let end_ := wrap_int (wrap_int (start + chunk_size) + (if rank < remainder then 1 else 0))
  wrap_int (wrap_int (wrap_int (end_ - start) * largura) * 3)

/-! ## Partition lemmas -/

theorem chunk_size_eq {altura size : Int} (ha : 0 ≤ altura) (hs : 0 ≤ size) :
    chunk_size altura size = altura / size := by
  unfold chunk_size c_div
  exact Int.tdiv_eq_ediv ha hs

theorem remainder_eq {altura size : Int} (ha : 0 ≤ altura) (hs : 0 ≤ size) :
    remainder altura size = altura % size := by
  unfold remainder c_mod
  exact Int.tmod_eq_emod ha hs

theorem start_zero {altura size : Int} (ha : 0 ≤ altura) (hs : 1 ≤ size) :
    start altura size 0 = 0 := by
  have hm : 0 ≤ altura % size := Int.emod_nonneg _ (by omega)
  unfold start
  rw [remainder_eq ha (by omega)]
  split <;> omega

theorem end_eq_start_succ (altura size rank : Int) :
    end_ altura size rank = start altura size (rank + 1) := by
  unfold end_ start
  generalize chunk_size altura size = b
  generalize remainder altura size = m
  rw [mul_add, mul_one]
  split_ifs <;> omega

theorem start_size {altura size : Int} (ha : 0 ≤ altura) (hs : 1 ≤ size) :
    start altura size size = altura := by
  have hm : altura % size < size := Int.emod_lt_of_pos _ (by omega)
  have hd : size * (altura / size) + altura % size = altura := Int.ediv_add_emod altura size
  unfold start
  rw [remainder_eq ha (by omega), chunk_size_eq ha (by omega), if_neg (by omega), mul_comm]
  exact hd

theorem start_le_succ {altura size : Int} (ha : 0 ≤ altura) (hs : 1 ≤ size) (rank : Int) :
    start altura size rank ≤ start altura size (rank + 1) := by
  have hb : 0 ≤ altura / size := Int.ediv_nonneg ha (by omega)
  rw [← end_eq_start_succ]
  unfold end_
  rw [chunk_size_eq ha (by omega)]
  split_ifs <;> omega

theorem start_mono {altura size : Int} (ha : 0 ≤ altura) (hs : 1 ≤ size) {r₁ r₂ : Int}
    (h : r₁ ≤ r₂) : start altura size r₁ ≤ start altura size r₂ := by
  obtain ⟨n, rfl⟩ : ∃ n : Nat, r₂ = r₁ + n := ⟨(r₂ - r₁).toNat, by omega⟩
  clear h
  induction n with
  | zero => simp
  | succ k ih =>
    have := start_le_succ ha hs (r₁ + k)
    rw [Nat.cast_succ, ← add_assoc]
    exact le_trans ih this

theorem start_cover {altura size : Int} (ha : 0 ≤ altura) (hs : 1 ≤ size) {y : Int}
    (hy : 0 ≤ y) (n : Nat) (hn : y < start altura size n) :
    ∃ r : Int, 0 ≤ r ∧ r < n ∧ start altura size r ≤ y ∧ y < start altura size (r + 1) := by
  induction n with
  | zero =>
    rw [Nat.cast_zero, start_zero ha hs] at hn
    omega
  | succ k ih =>
    by_cases hk : y < start altura size k
    · obtain ⟨r, h0, h1, h2, h3⟩ := ih hk
      exact ⟨r, h0, by push_cast; omega, h2, h3⟩
    · refine ⟨k, by omega, by push_cast; omega, by omega, ?_⟩
      push_cast at hn
      exact hn

/-! ## The partition: claims C1 and C3 -/

/-- C1: for every height `H ≥ 1` and worker count `W ≥ 1` the row ranges
`[start r, end_ r)` of the ranks `r = 0 .. W-1` lie inside `[0, H)`, every row
`y` of `[0, H)` lies in the range of exactly one rank, and two ranks that
share a row are the same rank (the ranges are pairwise disjoint). -/
theorem partition_tiles (H W : Int) (hH : 1 ≤ H) (hW : 1 ≤ W) :
    (∀ r y : Int, 0 ≤ r → r < W → start H W r ≤ y → y < end_ H W r → 0 ≤ y ∧ y < H) ∧
    (∀ y : Int, 0 ≤ y → y < H →
      ∃! r : Int, (0 ≤ r ∧ r < W) ∧ start H W r ≤ y ∧ y < end_ H W r) ∧
    (∀ r₁ r₂ y : Int, 0 ≤ r₁ → r₁ < W → 0 ≤ r₂ → r₂ < W →
      start H W r₁ ≤ y → y < end_ H W r₁ → start H W r₂ ≤ y → y < end_ H W r₂ → r₁ = r₂) := by
  have ha : (0 : Int) ≤ H := by omega
  have disj : ∀ r₁ r₂ y : Int, start H W r₁ ≤ y → y < end_ H W r₁ →
      start H W r₂ ≤ y → y < end_ H W r₂ → r₁ = r₂ := by
    intro r₁ r₂ y h1 h2 h3 h4
    rw [end_eq_start_succ] at h2 h4
    by_contra hne
    rcases lt_or_gt_of_ne hne with hlt | hgt
    · have := start_mono ha hW (show r₁ + 1 ≤ r₂ by omega)
      omega
    · have := start_mono ha hW (show r₂ + 1 ≤ r₁ by omega)
      omega
  refine ⟨?_, ?_, ?_⟩
  · intro r y h0 hr h1 h2
    rw [end_eq_start_succ] at h2
    have hlo := start_mono ha hW h0
    have hhi := start_mono ha hW (show r + 1 ≤ W by omega)
    rw [start_zero ha hW] at hlo
    rw [start_size ha hW] at hhi
    omega
  · intro y h0 hy
    have hn : y < start H W (W.toNat : Int) := by
      rw [Int.toNat_of_nonneg (by omega), start_size ha hW]
      exact hy
    obtain ⟨r, hr0, hr1, hr2, hr3⟩ := start_cover ha hW h0 W.toNat hn
    rw [← end_eq_start_succ] at hr3
    refine ⟨r, ⟨⟨hr0, by omega⟩, hr2, hr3⟩, ?_⟩
    rintro r' ⟨_, h1, h2⟩
    exact disj r' r y h1 h2 hr2 hr3
  · intro r₁ r₂ y _ _ _ _ h1 h2 h3 h4
    exact disj r₁ r₂ y h1 h2 h3 h4

/-- Witness of C1 at `H = 10`, `W = 3`: row 5 belongs to exactly one rank. -/
theorem partition_tiles_witness :
    ∃! r : Int, (0 ≤ r ∧ r < 3) ∧ start 10 3 r ≤ 5 ∧ 5 < end_ 10 3 r :=
  (partition_tiles 10 3 (by decide) (by decide)).2.1 5 (by decide) (by decide)

/-- C3: for `total_rows = H >= 1` and `worker_count = W >= 1`, with
`base = H / W` and `remainder = H % W`, every rank `r` (in particular every
`r < W`) gets
`start = base * r + min r remainder` and
`end = start + base + (1 if r < remainder else 0)`: `base + 1` rows when
`r < remainder` and `base` rows otherwise; for `H = 10`, `W = 3` the ranges
are `[0,4)`, `[4,7)`, `[7,10)`. -/
theorem partition_formula (H W r : Int) (hH : 1 ≤ H) (hW : 1 ≤ W) :
    start H W r = H / W * r + min r (H % W) ∧
    end_ H W r = start H W r + H / W + (if r < H % W then 1 else 0) ∧
    end_ H W r - start H W r = (if r < H % W then H / W + 1 else H / W) ∧
    (start 10 3 0 = 0 ∧ end_ 10 3 0 = 4) ∧ (start 10 3 1 = 4 ∧ end_ 10 3 1 = 7) ∧
    (start 10 3 2 = 7 ∧ end_ 10 3 2 = 10) := by
  have ha : (0 : Int) ≤ H := by omega
  have hs : (0 : Int) ≤ W := by omega
  refine ⟨?_, ?_, ?_, by decide, by decide, by decide⟩
  · unfold start
    rw [chunk_size_eq ha hs, remainder_eq ha hs]
    split_ifs with h
    · rw [min_eq_left (le_of_lt h)]
    · rw [min_eq_right (not_lt.mp h)]
  · unfold end_
    rw [chunk_size_eq ha hs, remainder_eq ha hs]
  · unfold end_
    rw [chunk_size_eq ha hs, remainder_eq ha hs]
    split_ifs <;> omega

/-- Witness of C3 at `H = 10`, `W = 3`, rank 1. -/
theorem partition_formula_witness :
    start 10 3 1 = 10 / 3 * 1 + min 1 (10 % 3) ∧ end_ 10 3 1 - start 10 3 1 = 3 := by
  have h := partition_formula 10 3 1 (by decide) (by decide)
  exact ⟨h.1, by rw [h.2.2.1]; decide⟩

/-! ## The render loop as a fold -/

theorem wrap_int_eq {z : Int} (h0 : -2147483648 ≤ z) (h1 : z ≤ 2147483647) : wrap_int z = z := by
  unfold wrap_int
  omega

theorem c_div_three (x : Int) : c_div (3 * x) 3 = x := by
  unfold c_div
  exact Int.mul_tdiv_cancel_left x (by decide)

theorem col_loop_step (fm : FloatModel) (largura altura i j : Int) (st : RenderState)
    (hj : j < wrap_int (largura * 3)) (h3 : j + 3 ≤ 2147483647) :
    col_loop fm largura altura i j st =
      col_loop fm largura altura i (j + 3) (pixel_body fm largura altura i j st) := by
  rw [col_loop, dif_pos hj, if_pos h3]

theorem col_loop_done (fm : FloatModel) (largura altura i j : Int) (st : RenderState)
    (hj : ¬ j < wrap_int (largura * 3)) : col_loop fm largura altura i j st = st := by
  rw [col_loop, dif_neg hj]

theorem row_loop_step (fm : FloatModel) (largura altura end_ i : Int) (st : RenderState)
    (hi : i < end_) :
    row_loop fm largura altura end_ i st =
      row_loop fm largura altura end_ (i + 1) (col_loop fm largura altura i 0 st) := by
  rw [row_loop, dif_pos hi]

theorem row_loop_done (fm : FloatModel) (largura altura end_ i : Int) (st : RenderState)
    (hi : ¬ i < end_) : row_loop fm largura altura end_ i st = st := by
  rw [row_loop, dif_neg hi]

theorem col_loop_advance (fm : FloatModel) (largura altura i : Int) :
    ∀ (m k : Nat) (st : RenderState),
      (∀ x : Nat, k ≤ x → x < k + m →
        3 * (x : Int) < wrap_int (largura * 3) ∧ 3 * (x : Int) + 3 ≤ 2147483647) →
      col_loop fm largura altura i (3 * (k : Int)) st =
        col_loop fm largura altura i (3 * ((k + m : Nat) : Int))
          ((List.range' k m).foldl
            (fun s (x : Nat) => pixel_body fm largura altura i (3 * (x : Int)) s) st) := by
  intro m
  induction m with
  | zero => intro k st _; rfl
  | succ m ih =>
    intro k st h
    obtain ⟨h1, h2⟩ := h k (le_refl _) (by omega)
    have e : 3 * (k : Int) + 3 = 3 * ((k + 1 : Nat) : Int) := by push_cast; ring
    rw [col_loop_step fm largura altura i _ st h1 h2, e,
      ih (k + 1) _ (fun x hx1 hx2 => h x (by omega) (by omega)), List.range'_succ,
      List.foldl_cons]
    have e2 : k + 1 + m = k + (m + 1) := by omega
    rw [e2]

theorem col_loop_eq_foldl (fm : FloatModel) (largura altura i : Int) (hw : 0 ≤ largura)
    (h3 : largura * 3 ≤ 2147483647) (k : Nat) (st : RenderState) :
    col_loop fm largura altura i (3 * (k : Int)) st =
      (List.range' k (largura.toNat - k)).foldl
        (fun s (x : Nat) => pixel_body fm largura altura i (3 * (x : Int)) s) st := by
  have hb : wrap_int (largura * 3) = largura * 3 := wrap_int_eq (by omega) h3
  rw [col_loop_advance fm largura altura i (largura.toNat - k) k st
    (fun x hx1 hx2 => by rw [hb]; omega)]
  exact col_loop_done fm largura altura i _ _ (by rw [hb]; push_cast; omega)

theorem row_loop_eq_foldl (fm : FloatModel) (largura altura start end_ : Int) :
    ∀ (n k : Nat) (st : RenderState), (end_ - start).toNat - k = n →
      row_loop fm largura altura end_ (start + (k : Int)) st =
        (List.range' k n).foldl
          (fun s (y : Nat) => col_loop fm largura altura (start + (y : Int)) 0 s) st := by
  intro n
  induction n with
  | zero =>
    intro k st h
    rw [row_loop, dif_neg (by omega)]
    rfl
  | succ m ih =>
    intro k st h
    rw [row_loop, dif_pos (by omega), List.range'_succ, List.foldl_cons]
    have e : start + (k : Int) + 1 = start + ((k + 1 : Nat) : Int) := by push_cast; ring
    rw [e]
    exact ih (k + 1) _ (by omega)

theorem col_loop_zero (fm : FloatModel) (largura altura i : Int) (hw : 0 ≤ largura)
    (h3 : largura * 3 ≤ 2147483647) (st : RenderState) :
    col_loop fm largura altura i 0 st = fold_cols fm largura altura i st := by
  have h := col_loop_eq_foldl fm largura altura i hw h3 0 st
  simpa using h

theorem render_block_eq_foldl (fm : FloatModel) (largura altura start end_ : Int)
    (hw : 0 ≤ largura) (h3 : largura * 3 ≤ 2147483647) :
    render_block fm largura altura start end_ =
      (List.range' 0 (end_ - start).toNat).foldl
        (fun s (y : Nat) => fold_cols fm largura altura (start + (y : Int)) s)
        { pixel_array := List.replicate (area largura start end_).toNat 0
          local_i := 0
          rgb := ⟨0, 0, 0⟩
          stderr := []
          fault := false } := by
  unfold render_block
  have h := row_loop_eq_foldl fm largura altura start end_ (end_ - start).toNat 0
    { pixel_array := List.replicate (area largura start end_).toNat 0
      local_i := 0
      rgb := ⟨0, 0, 0⟩
      stderr := []
      fault := false } (by omega)
  simp only [Nat.cast_zero, add_zero] at h
  rw [h]
  congr 1
  funext s y
  exact col_loop_zero fm largura altura _ hw h3 s

/-! ## After a fault -/

theorem set_fault_of_fault (st : RenderState) (h : st.fault = true) :
    { st with fault := true } = st := by
  obtain ⟨a, b, c, d, e⟩ := st
  simp only at h
  subst h
  rfl

theorem store_of_fault (st : RenderState) (v : Nat) (h : st.fault = true) : store st v = st := by
  unfold store
  rw [if_neg (by rw [h]; simp)]
  exact set_fault_of_fault st h

theorem pixel_body_of_fault (fm : FloatModel) (largura altura i j : Int) (st : RenderState)
    (h : st.fault = true) : pixel_body fm largura altura i j st = st := by
  unfold pixel_body
  rw [if_pos h]

theorem col_loop_of_fault (fm : FloatModel) (largura altura i : Int) :
    ∀ (n : Nat) (j : Int) (st : RenderState), (wrap_int (largura * 3) - j).toNat ≤ n →
      st.fault = true → col_loop fm largura altura i j st = st := by
  intro n
  induction n with
  | zero =>
    intro j st hn _
    exact col_loop_done fm largura altura i j st (by omega)
  | succ m ih =>
    intro j st hn hf
    rw [col_loop]
    split
    · rw [pixel_body_of_fault fm largura altura i j st hf]
      split
      · exact ih (j + 3) st (by omega) hf
      · exact set_fault_of_fault st hf
    · rfl

theorem row_loop_of_fault (fm : FloatModel) (largura altura end_ : Int) :
    ∀ (n : Nat) (i : Int) (st : RenderState), (end_ - i).toNat ≤ n →
      st.fault = true → row_loop fm largura altura end_ i st = st := by
  intro n
  induction n with
  | zero =>
    intro i st hn _
    exact row_loop_done fm largura altura end_ i st (by omega)
  | succ m ih =>
    intro i st hn hf
    rw [row_loop]
    split
    · rw [col_loop_of_fault fm largura altura i _ 0 st (le_refl _) hf]
      exact ih (i + 1) st (by omega) hf
    · rfl

/-- The body of the loop on a state whose next store is outside the array:
the call is made, then the first store stops the run. -/
theorem pixel_body_outside (fm : FloatModel) (largura altura i j : Int) (st : RenderState)
    (hf : st.fault = false) (hout : ¬ (0 ≤ st.local_i ∧ st.local_i < st.pixel_array.length)) :
    pixel_body fm largura altura i j st =
      { st with
        rgb := (compute_julia_pixel fm (c_div j 3) i largura altura
          (fm.toF (fm.dlit 10 1)) st.rgb).rgb
        stderr := st.stderr ++ (compute_julia_pixel fm (c_div j 3) i largura altura
          (fm.toF (fm.dlit 10 1)) st.rgb).diag
        fault := true } := by
  unfold pixel_body
  rw [if_neg (by rw [hf]; simp)]
  simp only []
  generalize compute_julia_pixel fm (c_div j 3) i largura altura
    (fm.toF (fm.dlit 10 1)) st.rgb = call
  have h1 : store { st with rgb := call.rgb, stderr := st.stderr ++ call.diag } call.rgb.c0 =
      { st with rgb := call.rgb, stderr := st.stderr ++ call.diag, fault := true } := by
    unfold store
    rw [if_neg (fun h => hout h.2)]
  rw [h1, store_of_fault _ _ rfl, store_of_fault _ _ rfl]

/-- A run whose `pixel_array` has no byte stops at the first store of the
first pixel. -/
theorem render_block_no_room (fm : FloatModel) (largura altura start end_ : Int)
    (harea : area largura start end_ ≤ 0) (hrows : start < end_)
    (hcols : 0 < wrap_int (largura * 3)) :
    render_block fm largura altura start end_ =
      { pixel_array := []
        local_i := 0
        rgb := (compute_julia_pixel fm (c_div 0 3) start largura altura
          (fm.toF (fm.dlit 10 1)) ⟨0, 0, 0⟩).rgb
        stderr := (compute_julia_pixel fm (c_div 0 3) start largura altura
          (fm.toF (fm.dlit 10 1)) ⟨0, 0, 0⟩).diag
        fault := true } := by
  have ha : (area largura start end_).toNat = 0 := by omega
  unfold render_block
  rw [ha, row_loop_step fm largura altura end_ start _ hrows,
    col_loop_step fm largura altura start 0 _ hcols (by decide),
    pixel_body_outside fm largura altura start 0 _ rfl (by simp)]
  simp only [List.replicate_zero, List.nil_append]
  rw [col_loop_of_fault fm largura altura start _ _ _ (le_refl _) rfl,
    row_loop_of_fault fm largura altura end_ _ _ _ (le_refl _) rfl]

/-! ## The filled prefix of `pixel_array` -/

theorem store_shaped {st : RenderState} {pre : List Nat} {n : Nat}
    (h : Shaped st pre (n + 1)) (v : Nat) :
    Shaped (store st v) (pre ++ [v]) n ∧ (store st v).rgb = st.rgb ∧
      (store st v).stderr = st.stderr := by
  obtain ⟨h1, h2, h3, h4⟩ := h
  have hlen : st.pixel_array.length = pre.length + (n + 1) := by
    rw [h1, List.length_append, List.length_replicate]
  have hcond : st.fault = false ∧ 0 ≤ st.local_i ∧ st.local_i < st.pixel_array.length := by
    refine ⟨h3, by omega, by omega⟩
  unfold store
  rw [if_pos hcond]
  refine ⟨⟨?_, ?_, h3, ?_⟩, rfl, rfl⟩
  · show st.pixel_array.set st.local_i.toNat v = _
    rw [h1, h2, Int.toNat_ofNat, List.set_append_right _ _ (le_refl _), Nat.sub_self,
      List.replicate_succ, List.set_cons_zero, List.append_assoc]
    rfl
  · show wrap_int (st.local_i + 1) = _
    rw [h2, List.length_append, wrap_int_eq (by omega) (by omega)]
    simp
  · rw [List.length_append]
    simp only [List.length_cons, List.length_nil]
    omega

theorem pixel_body_shaped (fm : FloatModel) (largura altura i j : Int) {st : RenderState}
    {pre : List Nat} {n : Nat} (h : Shaped st pre (n + 3)) :
    Shaped (pixel_body fm largura altura i j st)
      (pre ++ (compute_julia_pixel fm (c_div j 3) i largura altura
        (fm.toF (fm.dlit 10 1)) st.rgb).rgb.bytes) n ∧
    (pixel_body fm largura altura i j st).rgb =
      (compute_julia_pixel fm (c_div j 3) i largura altura
        (fm.toF (fm.dlit 10 1)) st.rgb).rgb ∧
    (pixel_body fm largura altura i j st).stderr = st.stderr ++
      (compute_julia_pixel fm (c_div j 3) i largura altura
        (fm.toF (fm.dlit 10 1)) st.rgb).diag := by
  unfold pixel_body
  rw [if_neg (by rw [h.2.2.1]; simp)]
  simp only []
  generalize compute_julia_pixel fm (c_div j 3) i largura altura
    (fm.toF (fm.dlit 10 1)) st.rgb = call
  have h0 : Shaped { st with rgb := call.rgb, stderr := st.stderr ++ call.diag } pre (n + 2 + 1) := h
  obtain ⟨s1, r1, e1⟩ := store_shaped h0 call.rgb.c0
  obtain ⟨s2, r2, e2⟩ := store_shaped s1 call.rgb.c1
  obtain ⟨s3, r3, e3⟩ := store_shaped s2 call.rgb.c2
  refine ⟨?_, ?_, ?_⟩
  · have e : pre ++ call.rgb.bytes = pre ++ [call.rgb.c0] ++ [call.rgb.c1] ++ [call.rgb.c2] := by
      simp [Rgb.bytes]
    rw [e]
    exact s3
  · simp only [r3, r2, r1]
  · simp only [e3, e2, e1]
/-! ## Rows and blocks for in-range coordinates -/

theorem length_flatMap_const {α β : Type} (f : α → List β) (c : Nat) :
    ∀ l : List α, (∀ a ∈ l, (f a).length = c) → (l.flatMap f).length = l.length * c := by
  intro l
  induction l with
  | nil => intro _; simp
  | cons a t ih =>
    intro h
    rw [List.flatMap_cons, List.length_append, h a (List.mem_cons_self _ _),
      ih (fun b hb => h b (List.mem_cons_of_mem _ hb)), List.length_cons]
    ring

theorem getElem?_flatMap_range' {β : Type} (f : Nat → List β) (c : Nat)
    (hc : ∀ k, (f k).length = c) :
    ∀ (n s k j : Nat), k < n → j < c →
      ((List.range' s n).flatMap f)[k * c + j]? = (f (s + k))[j]? := by
  intro n
  induction n with
  | zero => intro s k j hk; omega
  | succ m ih =>
    intro s k j hk hj
    rw [List.range'_succ, List.flatMap_cons]
    cases k with
    | zero =>
      rw [Nat.zero_mul, Nat.zero_add, Nat.add_zero]
      exact List.getElem?_append_left (by rw [hc]; exact hj)
    | succ k' =>
      have hle : (f s).length ≤ (k' + 1) * c + j := by
        rw [hc, Nat.succ_mul]; omega
      rw [List.getElem?_append_right hle, hc]
      have e : (k' + 1) * c + j - c = k' * c + j := by
        rw [Nat.succ_mul]; omega
      rw [e, ih (s + 1) k' j (by omega) hj]
      congr 2
      omega

theorem pixel_in_range (fm : FloatModel) (largura altura x y : Int) (rgb : Rgb)
    (hx0 : 0 ≤ x) (hx : x < largura) (hy0 : 0 ≤ y) (hy : y < altura) :
    compute_julia_pixel fm x y largura altura (fm.toF (fm.dlit 10 1)) rgb =
      { ret := 0
        rgb := paint fm (fm.toF (fm.dlit 10 1)) (julia_iter fm x y largura altura)
        diag := [] } := by
  unfold compute_julia_pixel
  rw [if_neg (by omega)]

theorem pixel_bytes_length (fm : FloatModel) (largura altura x y : Int) :
    (pixel_bytes fm largura altura x y).length = 3 := rfl

theorem row_bytes_length (fm : FloatModel) (largura altura y : Int) :
    (row_bytes fm largura altura y).length = largura.toNat * 3 := by
  unfold row_bytes
  exact (length_flatMap_const _ 3 _
    (fun (a : Nat) _ => pixel_bytes_length fm largura altura a y)).trans (by rw [List.length_range])

theorem block_bytes_length (fm : FloatModel) (largura altura start end_ : Int) :
    (block_bytes fm largura altura start end_).length =
      (end_ - start).toNat * (largura.toNat * 3) := by
  unfold block_bytes
  exact (length_flatMap_const _ (largura.toNat * 3) _
    (fun _ _ => row_bytes_length fm largura altura _)).trans (by rw [List.length_range])

theorem fold_pixels_shaped (fm : FloatModel) (largura altura i : Int)
    (hi0 : 0 ≤ i) (hi : i < altura) :
    ∀ (m k : Nat) (st : RenderState) (pre : List Nat) (n : Nat),
      Shaped st pre (n + 3 * m) → k + m ≤ largura.toNat →
      Shaped ((List.range' k m).foldl
          (fun s (x : Nat) => pixel_body fm largura altura i (3 * (x : Int)) s) st)
        (pre ++ (List.range' k m).flatMap (fun x => pixel_bytes fm largura altura x i)) n ∧
      ((List.range' k m).foldl
          (fun s (x : Nat) => pixel_body fm largura altura i (3 * (x : Int)) s) st).stderr =
        st.stderr := by
  intro m
  induction m with
  | zero =>
    intro k st pre n h _
    simpa using h
  | succ m ih =>
    intro k st pre n h hk
    have h' : Shaped st pre (n + 3 * m + 3) := by
      have e : n + 3 * (m + 1) = n + 3 * m + 3 := by ring
      rw [e] at h
      exact h
    obtain ⟨s1, _, e1⟩ := pixel_body_shaped fm largura altura i (3 * (k : Int)) h'
    rw [c_div_three, pixel_in_range fm largura altura k i st.rgb (by omega) (by omega) hi0 hi] at s1 e1
    obtain ⟨s2, e2⟩ := ih (k + 1) _ _ n s1 (by omega)
    rw [List.range'_succ, List.foldl_cons, List.flatMap_cons]
    refine ⟨?_, ?_⟩
    · have e : pre ++ (pixel_bytes fm largura altura k i ++
          (List.range' (k + 1) m).flatMap (fun x => pixel_bytes fm largura altura x i)) =
          pre ++ (⟨0, paint fm (fm.toF (fm.dlit 10 1)) (julia_iter fm k i largura altura),
            []⟩ : PixelCall).rgb.bytes ++
          (List.range' (k + 1) m).flatMap (fun x => pixel_bytes fm largura altura x i) := by
        rw [List.append_assoc]
        congr 2
        unfold pixel_bytes
        rw [pixel_in_range fm largura altura k i _ (by omega) (by omega) hi0 hi]
      rw [e]
      exact s2
    · rw [e2, e1]
      simp

theorem fold_cols_shaped (fm : FloatModel) {largura altura i : Int}
    (hi0 : 0 ≤ i) (hi : i < altura) {st : RenderState} {pre : List Nat} {n : Nat}
    (h : Shaped st pre (n + 3 * largura.toNat)) :
    Shaped (fold_cols fm largura altura i st) (pre ++ row_bytes fm largura altura i) n ∧
      (fold_cols fm largura altura i st).stderr = st.stderr := by
  have := fold_pixels_shaped fm largura altura i hi0 hi largura.toNat 0 st pre n h (by omega)
  unfold fold_cols row_bytes
  rw [List.range_eq_range']
  exact this

theorem fold_rows_shaped (fm : FloatModel) (largura altura start : Int) :
    ∀ (m k : Nat) (st : RenderState) (pre : List Nat) (n : Nat),
      Shaped st pre (n + m * (3 * largura.toNat)) →
      (∀ y : Nat, k ≤ y → y < k + m → 0 ≤ start + (y : Int) ∧ start + (y : Int) < altura) →
      Shaped ((List.range' k m).foldl
          (fun s (y : Nat) => fold_cols fm largura altura (start + (y : Int)) s) st)
        (pre ++ (List.range' k m).flatMap
          (fun y => row_bytes fm largura altura (start + (y : Int)))) n ∧
      ((List.range' k m).foldl
          (fun s (y : Nat) => fold_cols fm largura altura (start + (y : Int)) s) st).stderr =
        st.stderr := by
  intro m
  induction m with
  | zero =>
    intro k st pre n h _
    simpa using h
  | succ m ih =>
    intro k st pre n h hk
    have h' : Shaped st pre (n + m * (3 * largura.toNat) + 3 * largura.toNat) := by
      have e : n + (m + 1) * (3 * largura.toNat) =
          n + m * (3 * largura.toNat) + 3 * largura.toNat := by ring
      rw [e] at h
      exact h
    obtain ⟨hk0, hk1⟩ := hk k (le_refl _) (by omega)
    obtain ⟨s1, e1⟩ := fold_cols_shaped fm hk0 hk1 h'
    obtain ⟨s2, e2⟩ := ih (k + 1) _ _ n s1 (fun y h1 h2 => hk y (by omega) (by omega))
    rw [List.range'_succ, List.foldl_cons, List.flatMap_cons, ← List.append_assoc]
    exact ⟨s2, by rw [e2, e1]⟩

theorem area_eq (largura start end_ : Int) (hw : 0 ≤ largura) (hse : start ≤ end_)
    (hfit : (end_ - start) * largura * 3 ≤ 2147483647) :
    area largura start end_ = (end_ - start) * largura * 3 := by
  unfold area
  rcases eq_or_lt_of_le hw with h0 | hpos
  · rw [← h0]
    simp only [mul_zero, zero_mul]
    rfl
  · have hr0 : 0 ≤ end_ - start := by omega
    have hp0 : 0 ≤ (end_ - start) * largura := Int.mul_nonneg hr0 hw
    have hr1 : end_ - start ≤ (end_ - start) * largura := by nlinarith
    have e1 : wrap_int (end_ - start) = end_ - start := wrap_int_eq (by omega) (by omega)
    have e2 : wrap_int ((end_ - start) * largura) = (end_ - start) * largura :=
      wrap_int_eq (by omega) (by omega)
    have e3 : wrap_int ((end_ - start) * largura * 3) = (end_ - start) * largura * 3 :=
      wrap_int_eq (by omega) hfit
    rw [e1, e2, e3]

theorem area_toNat (largura start end_ : Int) (hw : 0 ≤ largura) (hse : start ≤ end_)
    (hfit : (end_ - start) * largura * 3 ≤ 2147483647) :
    (area largura start end_).toNat = (end_ - start).toNat * (3 * largura.toNat) := by
  rw [area_eq largura start end_ hw hse hfit]
  obtain ⟨a, ha⟩ : ∃ a : Nat, end_ - start = a := ⟨(end_ - start).toNat, by omega⟩
  obtain ⟨w, rfl⟩ : ∃ w : Nat, largura = w := ⟨largura.toNat, by omega⟩
  rw [ha]
  have e : (a : Int) * (w : Int) * 3 = ((a * (3 * w) : Nat) : Int) := by push_cast; ring
  rw [e]
  exact Int.toNat_ofNat _

theorem area_empty (largura start : Int) : area largura start start = 0 := by
  unfold area
  rw [sub_self]
  have e : wrap_int 0 = 0 := by decide
  rw [e, zero_mul, e, zero_mul, e]

/-- The render loop on an empty row range does nothing. -/
theorem render_block_empty (fm : FloatModel) (largura altura start : Int) :
    render_block fm largura altura start start =
      { pixel_array := [], local_i := 0, rgb := ⟨0, 0, 0⟩, stderr := [], fault := false } := by
  unfold render_block
  rw [row_loop_done fm largura altura start start _ (lt_irrefl _), area_empty]
  rfl

theorem width_fits {largura start end_ : Int} (hw : 0 ≤ largura) (hlt : start < end_)
    (hfit : (end_ - start) * largura * 3 ≤ 2147483647) : largura * 3 ≤ 2147483647 := by
  have h1 : 1 ≤ end_ - start := by omega
  nlinarith

/-- The render loop on rows inside the image, when `area` fits in an `int`:
`pixel_array` is filled with the rows of the range in ascending order and the
run does not stop on a fault. -/
theorem render_block_in_range (fm : FloatModel) {largura altura start end_ : Int}
    (hw : 0 ≤ largura) (hs : 0 ≤ start) (hse : start ≤ end_) (he : end_ ≤ altura)
    (hfit : (end_ - start) * largura * 3 ≤ 2147483647) :
    (render_block fm largura altura start end_).pixel_array =
      block_bytes fm largura altura start end_ ∧
    (render_block fm largura altura start end_).local_i = (end_ - start) * largura * 3 ∧
    (render_block fm largura altura start end_).stderr = [] ∧
    (render_block fm largura altura start end_).fault = false := by
  rcases eq_or_lt_of_le hse with heq | hlt
  · subst heq
    rw [render_block_empty]
    refine ⟨?_, by simp, rfl, rfl⟩
    unfold block_bytes
    simp
  have h3 := width_fits hw hlt hfit
  have hbound : (end_ - start).toNat * (3 * largura.toNat) ≤ 2147483647 := by
    have h1 : ((end_ - start).toNat : Int) = end_ - start := Int.toNat_of_nonneg (by omega)
    have h2 : (largura.toNat : Int) = largura := Int.toNat_of_nonneg hw
    have : (((end_ - start).toNat * (3 * largura.toNat) : Nat) : Int) ≤ 2147483647 := by
      push_cast
      rw [h1, h2]
      linarith
    exact_mod_cast this
  have hshape : Shaped
      { pixel_array := List.replicate (area largura start end_).toNat 0
        local_i := 0, rgb := ⟨0, 0, 0⟩, stderr := [], fault := false } []
      (0 + (end_ - start).toNat * (3 * largura.toNat)) := by
    refine ⟨?_, rfl, rfl, ?_⟩
    · rw [area_toNat largura start end_ hw hse hfit]
      simp
    · simpa using hbound
  obtain ⟨⟨s1, s2, s3, _⟩, e1⟩ := fold_rows_shaped fm largura altura start
    (end_ - start).toNat 0 _ [] 0 hshape (fun y _ hy => by constructor <;> omega)
  rw [render_block_eq_foldl fm largura altura start end_ hw h3]
  refine ⟨?_, ?_, e1, s3⟩
  · rw [s1]
    unfold block_bytes
    rw [List.range_eq_range']
    simp
  · rw [s2, List.nil_append, ← List.range_eq_range']
    have hl := block_bytes_length fm largura altura start end_
    unfold block_bytes at hl
    rw [hl]
    have h1 : ((end_ - start).toNat : Int) = end_ - start := Int.toNat_of_nonneg (by omega)
    have h2 : (largura.toNat : Int) = largura := Int.toNat_of_nonneg hw
    push_cast
    rw [h1, h2]
    ring
theorem block_bytes_append (fm : FloatModel) (largura altura a b c : Int)
    (hab : a ≤ b) (hbc : b ≤ c) :
    block_bytes fm largura altura a b ++ block_bytes fm largura altura b c =
      block_bytes fm largura altura a c := by
  unfold block_bytes
  have e : (c - a).toNat = (b - a).toNat + (c - b).toNat := by omega
  rw [e, List.range_add, List.flatMap_append, List.flatMap_map]
  congr 1
  apply List.flatMap_congr
  intro k _
  have e2 : a + (((b - a).toNat + k : Nat) : Int) = b + (k : Int) := by
    push_cast
    rw [Int.toNat_of_nonneg (by omega)]
    ring
  show row_bytes fm largura altura (b + (k : Int)) =
    row_bytes fm largura altura (a + (((b - a).toNat + k : Nat) : Int))
  rw [e2]

theorem flatMap_blocks (fm : FloatModel) (H W : Int) (hH : 0 ≤ H) (hW : 1 ≤ W) :
    ∀ n : Nat, (List.range n).flatMap
        (fun r : Nat => block_bytes fm (2 * H) H (start H W r) (start H W ((r : Int) + 1))) =
      block_bytes fm (2 * H) H 0 (start H W n) := by
  intro n
  induction n with
  | zero =>
    rw [Nat.cast_zero, start_zero hH hW]
    rfl
  | succ m ih =>
    rw [List.range_succ, List.flatMap_append, ih, List.flatMap_singleton]
    have h0 : 0 ≤ start H W m := by
      have := start_mono hH hW (show (0 : Int) ≤ m by omega)
      rw [start_zero hH hW] at this
      exact this
    have e : ((m + 1 : Nat) : Int) = (m : Int) + 1 := by push_cast; rfl
    rw [e]
    exact block_bytes_append fm (2 * H) H 0 _ _ h0 (start_le_succ hH hW m)

theorem start_bounds {H W : Int} (hH : 0 ≤ H) (hW : 1 ≤ W) {r : Int} (h0 : 0 ≤ r)
    (hr : r < W) :
    0 ≤ start H W r ∧ start H W r ≤ end_ H W r ∧ end_ H W r ≤ H := by
  have h1 := start_mono hH hW h0
  have h2 := start_le_succ hH hW r
  have h3 := start_mono hH hW (show r + 1 ≤ W by omega)
  rw [start_zero hH hW] at h1
  rw [start_size hH hW] at h3
  rw [end_eq_start_succ]
  exact ⟨h1, h2, h3⟩

theorem height_fits {H rows : Int} (hH : 1 ≤ H) (hmax : H ≤ 18918)
    (h1 : rows ≤ H) : rows * (2 * H) * 3 ≤ 2147483647 := by
  have h : rows * (2 * H) ≤ 18918 * 37836 :=
    mul_le_mul (by omega) (by omega) (by omega) (by decide)
  omega

theorem width_int {H : Int} (hH : 1 ≤ H) (hmax : H ≤ 18918) : wrap_int (2 * H) = 2 * H :=
  wrap_int_eq (by omega) (by omega)

/-! ## The render loop: claims C2 and C4 -/

/-- C2, amended (invariance under re-partitioning): for every height
`1 <= H <= 18918`, the heights for which the one-worker `area = 6 * H^2` fits
in an `int`, and every worker count `k >= 1`, the concatenation in ascending
rank order `0 .. k-1` of the pixel buffers built by the render loop of each
rank equals the buffer built by a single worker, and the single worker's run
does not stop on a fault. -/
theorem repartition_invariant (fm : FloatModel) (H k : Int) (hH : 1 ≤ H) (hmax : H ≤ 18918)
    (hk : 1 ≤ k) :
    (List.range k.toNat).flatMap (fun r : Nat => (main_render fm H r k).pixel_array) =
      (main_render fm H 0 1).pixel_array ∧
    (main_render fm H 0 1).fault = false := by
  have hH0 : (0 : Int) ≤ H := by omega
  have hw : (0 : Int) ≤ 2 * H := by omega
  obtain ⟨c0, c1, c2⟩ := start_bounds hH0 (le_refl (1 : Int)) (le_refl (0 : Int)) (by decide)
  have hsingle := render_block_in_range fm hw c0 c1 c2
    (height_fits hH hmax (by omega))
  have hone : (main_render fm H 0 1).pixel_array = block_bytes fm (2 * H) H 0 H := by
    have e1 : start H 1 0 = 0 := start_zero hH0 (le_refl _)
    have e2 : end_ H 1 0 = H := by
      rw [end_eq_start_succ]
      exact start_size hH0 (le_refl _)
    unfold main_render
    rw [width_int hH hmax, hsingle.1, e1, e2]
  have hmany : (List.range k.toNat).flatMap (fun r : Nat => (main_render fm H r k).pixel_array) =
      (List.range k.toNat).flatMap
        (fun r : Nat => block_bytes fm (2 * H) H (start H k r) (start H k ((r : Int) + 1))) := by
    apply List.flatMap_congr
    intro r hr
    rw [List.mem_range] at hr
    obtain ⟨b0, b1, b2⟩ := start_bounds hH0 hk (show (0 : Int) ≤ r by omega)
      (show (r : Int) < k by omega)
    have h := (render_block_in_range fm hw b0 b1 b2
      (height_fits hH hmax (by omega))).1
    show (main_render fm H r k).pixel_array = _
    unfold main_render
    rw [width_int hH hmax, h, end_eq_start_succ]
  refine ⟨?_, ?_⟩
  · rw [hone, hmany, flatMap_blocks fm H k hH0 hk, Int.toNat_of_nonneg (by omega),
      start_size hH0 hk]
  · unfold main_render
    rw [width_int hH hmax]
    exact hsingle.2.2.2

/-- Witness of C2 (amended) at `H = 4`, `k = 3`, in the fixed-point instance. -/
theorem repartition_invariant_witness :
    (List.range 3).flatMap (fun r : Nat => (main_render fixed16 4 r 3).pixel_array) =
      (main_render fixed16 4 0 1).pixel_array :=
  (repartition_invariant fixed16 4 3 (by decide) (by decide) (by decide)).1

/-- C2 as stated fails at `H = 18919` with `k = 2`: the two workers build
buffers of 1073842440 and 1073728926 bytes, while for the single worker
`area` wraps to a negative `int`, no byte is allocated, and its run stops at
the first store with an empty buffer. -/
theorem repartition_counterexample :
    ((main_render fixed16 18919 0 2).pixel_array ++
      (main_render fixed16 18919 1 2).pixel_array).length = 2147571366 ∧
    area (wrap_int (2 * 18919)) (start 18919 1 0) (end_ 18919 1 0) = -2147395930 ∧
    (main_render fixed16 18919 0 1).pixel_array = [] ∧
    (main_render fixed16 18919 0 1).fault = true ∧
    (main_render fixed16 18919 0 2).pixel_array ++ (main_render fixed16 18919 1 2).pixel_array ≠
      (main_render fixed16 18919 0 1).pixel_array := by
  have hw : wrap_int (2 * 18919) = 37838 := by decide
  have h0 : (main_render fixed16 18919 0 2).pixel_array.length = 1073842440 := by
    unfold main_render
    rw [hw, (@render_block_in_range fixed16 37838 18919 (start 18919 2 0) (end_ 18919 2 0)
      (by decide) (by decide) (by decide) (by decide) (by decide)).1, block_bytes_length]
    decide
  have h1 : (main_render fixed16 18919 1 2).pixel_array.length = 1073728926 := by
    unfold main_render
    rw [hw, (@render_block_in_range fixed16 37838 18919 (start 18919 2 1) (end_ 18919 2 1)
      (by decide) (by decide) (by decide) (by decide) (by decide)).1, block_bytes_length]
    decide
  have hone := render_block_no_room fixed16 37838 18919 (start 18919 1 0) (end_ 18919 1 0)
    (by decide) (by decide) (by decide)
  have hlen : ((main_render fixed16 18919 0 2).pixel_array ++
      (main_render fixed16 18919 1 2).pixel_array).length = 2147571366 := by
    rw [List.length_append, h0, h1]
  have hnil : (main_render fixed16 18919 0 1).pixel_array = [] := by
    unfold main_render
    rw [hw, hone]
  refine ⟨hlen, by decide, hnil, ?_, ?_⟩
  · unfold main_render
    rw [hw, hone]
  · intro h
    rw [hnil] at h
    rw [h] at hlen
    exact absurd hlen (by decide)

theorem rgb_bytes_getElem? (p : Rgb) (c : Nat) (hc : c < 3) :
    p.bytes[c]? = some (p.chan c) := by
  have h : c = 0 ∨ c = 1 ∨ c = 2 := by omega
  rcases h with rfl | rfl | rfl <;> rfl

/-- C4, amended: for every image with `width = 2 * height` and every row range
`[start, end_)` inside `[0, height)` whose size `(end_ - start) * width * 3`
fits in an `int`, the render loop does not stop on a fault and writes exactly
`(end_ - start) * width * 3` bytes (the final `local_i`, which is also the
length of `pixel_array`), the buffer is the rows of the range in ascending
order, each row its pixels in ascending column order, and the byte at index
`((y - start) * width + x) * 3 + c` is channel `c` of
`compute_julia_pixel(x, y, width, height, 1.0)`. -/
theorem render_block_layout (fm : FloatModel) (altura start end_ : Int)
    (hs : 0 ≤ start) (hse : start ≤ end_) (he : end_ ≤ altura)
    (hfit : (end_ - start) * (2 * altura) * 3 ≤ 2147483647) :
    (render_block fm (2 * altura) altura start end_).fault = false ∧
    (render_block fm (2 * altura) altura start end_).local_i =
      (end_ - start) * (2 * altura) * 3 ∧
    ((render_block fm (2 * altura) altura start end_).pixel_array.length : Int) =
      (end_ - start) * (2 * altura) * 3 ∧
    (render_block fm (2 * altura) altura start end_).pixel_array =
      block_bytes fm (2 * altura) altura start end_ ∧
    ∀ (y x : Int) (c : Nat) (rgb : Rgb), start ≤ y → y < end_ → 0 ≤ x → x < 2 * altura → c < 3 →
      (render_block fm (2 * altura) altura start end_).pixel_array[
          (((y - start) * (2 * altura) + x) * 3 + (c : Int)).toNat]? =
        some ((compute_julia_pixel fm x y (2 * altura) altura
          (fm.toF (fm.dlit 10 1)) rgb).rgb.chan c) := by
  have hw : (0 : Int) ≤ 2 * altura := by omega
  obtain ⟨h1, h2, _, h4⟩ := render_block_in_range fm hw hs hse he hfit
  have hlen : ((block_bytes fm (2 * altura) altura start end_).length : Int) =
      (end_ - start) * (2 * altura) * 3 := by
    rw [block_bytes_length]
    push_cast
    rw [Int.toNat_of_nonneg (by omega), Int.toNat_of_nonneg hw]
    ring
  refine ⟨h4, h2, by rw [h1]; exact hlen, h1, ?_⟩
  intro y x c rgb hy0 hy hx0 hx hc
  obtain ⟨ky, hky⟩ : ∃ ky : Nat, y - start = ky := ⟨(y - start).toNat, by omega⟩
  obtain ⟨kx, hkx⟩ : ∃ kx : Nat, x = kx := ⟨x.toNat, by omega⟩
  obtain ⟨w, hwn⟩ : ∃ w : Nat, 2 * altura = w := ⟨(2 * altura).toNat, by omega⟩
  have hidx : (((y - start) * (2 * altura) + x) * 3 + (c : Int)).toNat =
      ky * (w * 3) + (kx * 3 + c) := by
    rw [hky, hkx, hwn]
    have e : ((ky : Int) * (w : Int) + (kx : Int)) * 3 + (c : Int) =
        ((ky * (w * 3) + (kx * 3 + c) : Nat) : Int) := by push_cast; ring
    rw [e]
    exact Int.toNat_ofNat _
  have hwt : (2 * altura).toNat = w := by omega
  have hkxw : kx < w := by omega
  rw [h1, hidx]
  unfold block_bytes
  rw [List.range_eq_range', getElem?_flatMap_range' _ (w * 3)
    (fun k => by rw [row_bytes_length, hwt]) _ 0 ky (kx * 3 + c) (by omega) (by omega)]
  unfold row_bytes
  rw [hwt, List.range_eq_range', getElem?_flatMap_range' _ 3
    (fun k => pixel_bytes_length fm (2 * altura) altura k _) _ 0 kx c hkxw hc]
  have ey : start + ((0 + ky : Nat) : Int) = y := by push_cast; omega
  have ex : ((0 + kx : Nat) : Int) = x := by push_cast; omega
  rw [ey, ex]
  unfold pixel_bytes
  rw [pixel_in_range fm (2 * altura) altura x y _ hx0 hx (by omega) (by omega),
    pixel_in_range fm (2 * altura) altura x y rgb hx0 hx (by omega) (by omega)]
  exact rgb_bytes_getElem? _ c hc

/-- Witness of C4 (amended): rows `[1, 3)` of the 8 x 4 image, fixed-point
instance. -/
theorem render_block_layout_witness :
    (render_block fixed16 (2 * 4) 4 1 3).local_i = (3 - 1) * (2 * 4) * 3 ∧
    (render_block fixed16 (2 * 4) 4 1 3).pixel_array =
      block_bytes fixed16 (2 * 4) 4 1 3 :=
  have h := render_block_layout fixed16 4 1 3 (by decide) (by decide) (by decide) (by decide)
  ⟨h.2.1, h.2.2.2.1⟩

/-- C4 as stated fails for the 37838 x 18919 image and the row range
`[0, 18919)`: the claim gives `18919 * 37838 * 3 = 2147571366` bytes written,
but `area` wraps to `-2147395930`, no byte is allocated, and the loop stops
at its first store with `local_i = 0` and an empty buffer. -/
theorem render_block_counterexample :
    ((0 : Int) ≤ 0 ∧ (0 : Int) ≤ 18919 ∧ (18919 : Int) ≤ 18919) ∧
    ((18919 : Int) - 0) * (2 * 18919) * 3 = 2147571366 ∧
    area (2 * 18919) 0 18919 = -2147395930 ∧
    (render_block fixed16 (2 * 18919) 18919 0 18919).fault = true ∧
    (render_block fixed16 (2 * 18919) 18919 0 18919).local_i = 0 ∧
    (render_block fixed16 (2 * 18919) 18919 0 18919).pixel_array = [] := by
  have h := render_block_no_room fixed16 (2 * 18919) 18919 0 18919 (by decide) (by decide)
    (by decide)
  rw [h]
  exact ⟨by decide, by decide, by decide, rfl, rfl, rfl⟩
/-! ## The renderer's bounds check: claim C5 -/

/-- C5: `compute_julia_pixel` returns `-1` and leaves the 3 bytes of `rgb`
unchanged if and only if `x < 0`, `x >= largura`, `y < 0` or `y >= altura`;
its return value is `-1` in that case and `0` for every in-range coordinate;
in an 8 x 4 image `(0,0)` and `(7,3)` return `0`, and `(-1,0)` returns `-1`
with `rgb` untouched. -/
theorem compute_julia_pixel_bounds (fm : FloatModel) (x y largura altura : Int)
    (tint_bias : fm.F) (rgb : Rgb) :
    (((compute_julia_pixel fm x y largura altura tint_bias rgb).ret = -1 ∧
        (compute_julia_pixel fm x y largura altura tint_bias rgb).rgb = rgb) ↔
      (x < 0 ∨ x ≥ largura ∨ y < 0 ∨ y ≥ altura)) ∧
    (compute_julia_pixel fm x y largura altura tint_bias rgb).ret =
      (if x < 0 ∨ x ≥ largura ∨ y < 0 ∨ y ≥ altura then -1 else 0) ∧
    (compute_julia_pixel fm 0 0 8 4 tint_bias rgb).ret = 0 ∧
    (compute_julia_pixel fm 7 3 8 4 tint_bias rgb).ret = 0 ∧
    (compute_julia_pixel fm (-1) 0 8 4 tint_bias rgb).ret = -1 ∧
    (compute_julia_pixel fm (-1) 0 8 4 tint_bias rgb).rgb = rgb := by
  refine ⟨?_, ?_, ?_, ?_, ?_, ?_⟩
  · unfold compute_julia_pixel
    by_cases h : x < 0 ∨ x ≥ largura ∨ y < 0 ∨ y ≥ altura
    · rw [if_pos h]
      exact ⟨fun _ => h, fun _ => ⟨rfl, rfl⟩⟩
    · rw [if_neg h]
      exact ⟨fun hh => absurd hh.1 (show ¬ (0 : Int) = -1 by decide), fun hh => absurd hh h⟩
  · unfold compute_julia_pixel
    by_cases h : x < 0 ∨ x ≥ largura ∨ y < 0 ∨ y ≥ altura
    · rw [if_pos h, if_pos h]
    · rw [if_neg h, if_neg h]
  · unfold compute_julia_pixel
    rw [if_neg (by decide)]
  · unfold compute_julia_pixel
    rw [if_neg (by decide)]
  · unfold compute_julia_pixel
    rw [if_pos (by decide)]
  · unfold compute_julia_pixel
    rw [if_pos (by decide)]

/-! ## The header layout: claim C6 -/

theorem le_bytes_length (n : Nat) (v : Int) : (le_bytes n v).length = n := by
  simp [le_bytes]

theorem objects_within_fits : ∀ (objs : List (List Nat)) (n : Nat),
    (objs.map List.length).sum ≤ n → objects_within objs n = objs.length := by
  intro objs
  induction objs with
  | nil => intro n _; rfl
  | cons o rest ih =>
    intro n h
    rw [List.map_cons, List.sum_cons] at h
    rw [objects_within, if_pos (by omega), ih _ (by omega), List.length_cons]

theorem fwrite_fits (objs : List (List Nat)) (f : FILE)
    (h : (objs.map List.length).sum ≤ f.room) :
    fwrite objs f = (objs.length,
      { bytes := f.bytes ++ objs.flatten, room := f.room - (objs.map List.length).sum }) := by
  have hl : objs.flatten.length = (objs.map List.length).sum := List.length_flatten objs
  unfold fwrite
  rw [objects_within_fits objs f.room h, List.take_of_length_le (by omega), hl]

theorem foldl_add_fwrite_fits : ∀ (calls : List (List (List Nat))) (s : Nat × FILE),
    (calls.flatten.map List.length).sum ≤ s.2.room →
    List.foldl add_fwrite s calls = (s.1 + calls.flatten.length,
      { bytes := s.2.bytes ++ calls.flatten.flatten
        room := s.2.room - (calls.flatten.map List.length).sum }) := by
  intro calls
  induction calls with
  | nil => intro s _; simp
  | cons c rest ih =>
    intro s h
    rw [List.flatten_cons, List.map_append, List.sum_append] at h
    have hc := fwrite_fits c s.2 (by omega)
    rw [List.foldl_cons, ih _ (by unfold add_fwrite; rw [hc]; show _ ≤ s.2.room - _; omega)]
    unfold add_fwrite
    rw [hc]
    simp only [List.flatten_cons, List.length_append, List.flatten_append, List.map_append,
      List.sum_append, List.append_assoc, Nat.sub_sub, Nat.add_assoc]

theorem header_bytes_length (largura altura : Int) : (header_bytes largura altura).length = 54 := by
  simp [header_bytes, le_bytes_length]

theorem fwrite_calls_count (largura altura : Int) :
    (fwrite_calls largura altura).flatten.length = 17 := rfl

theorem fwrite_calls_bytes (largura altura : Int) :
    (fwrite_calls largura altura).flatten.flatten = header_bytes largura altura := by
  simp [fwrite_calls, header_bytes, le_bytes]

theorem fwrite_calls_size (largura altura : Int) :
    ((fwrite_calls largura altura).flatten.map List.length).sum = 54 := by
  simp [fwrite_calls, le_bytes_length]

theorem write_bmp_header_fits (f : FILE) (largura altura : Int) (hroom : 54 ≤ f.room) :
    write_bmp_header f largura altura =
      (0, { bytes := f.bytes ++ header_bytes largura altura, room := f.room - 54 }) := by
  unfold write_bmp_header
  simp only []
  rw [foldl_add_fwrite_fits _ _ (by rw [fwrite_calls_size]; exact hroom), fwrite_calls_count,
    fwrite_calls_bytes, fwrite_calls_size]
  rfl

theorem le_bytes_four (v : Int) :
    le_bytes 4 v = [(v % 256).toNat, (v / 256 % 256).toNat, (v / 65536 % 256).toNat,
      (v / 16777216 % 256).toNat] := by
  simp [le_bytes, List.range_succ]

theorem le_bytes_two (v : Int) :
    le_bytes 2 v = [(v % 256).toNat, (v / 256 % 256).toNat] := by
  simp [le_bytes, List.range_succ]

theorem decode_four (v : Int) (h0 : 0 ≤ v) (h1 : v < 4294967296) :
    (v % 256).toNat + 256 * ((v / 256 % 256).toNat + 256 * ((v / 65536 % 256).toNat +
      256 * (v / 16777216 % 256).toNat)) = v.toNat := by
  omega

theorem header_field_filesize (largura altura : Int) :
    read_le (header_bytes largura altura) 2 4 = (filesize largura altura).toNat := by
  have h0 : 0 ≤ filesize largura altura := Int.emod_nonneg _ (by decide)
  have h1 : filesize largura altura < 4294967296 := Int.emod_lt_of_pos _ (by decide)
  rw [← decode_four _ h0 h1]
  simp [header_bytes, le_bytes_four, le_bytes_two, read_le]

theorem header_field_image_size (largura altura : Int) :
    read_le (header_bytes largura altura) 34 4 = (image_size largura altura).toNat := by
  have h0 : 0 ≤ image_size largura altura := Int.emod_nonneg _ (by decide)
  have h1 : image_size largura altura < 4294967296 := Int.emod_lt_of_pos _ (by decide)
  rw [← decode_four _ h0 h1]
  simp [header_bytes, le_bytes_four, le_bytes_two, read_le]

theorem header_field_width (largura altura : Int) :
    read_le (header_bytes largura altura) 18 4 = (largura % 4294967296).toNat := by
  simp [header_bytes, le_bytes_four, le_bytes_two, read_le]
  omega

theorem header_field_height (largura altura : Int) :
    read_le (header_bytes largura altura) 22 4 = (altura % 4294967296).toNat := by
  simp [header_bytes, le_bytes_four, le_bytes_two, read_le]
  omega

/-- C6: when all writes succeed (the stream accepts 54 more bytes)
`write_bmp_header` returns 0 and appends exactly 54 bytes, in this order:
`'B','M'`; the 4-byte file size; 4 zero reserved bytes; the 4-byte offset 54;
the 4-byte header size 40; the 4-byte width; the 4-byte height; the 2-byte
planes 1; the 2-byte bits-per-pixel 24; the 4-byte compression 0; the 4-byte
image size; four 4-byte zero fields; integers are little-endian.  For width 8
and height 4 the magic is "BM", the width field is 8, the height field 4,
bits-per-pixel 24 and compression 0. -/
theorem write_bmp_header_layout (f : FILE) (largura altura : Int) (hroom : 54 ≤ f.room) :
    (write_bmp_header f largura altura).1 = 0 ∧
    (write_bmp_header f largura altura).2.bytes = f.bytes ++
      ([66, 77] ++ le_bytes 4 (filesize largura altura) ++ [0, 0, 0, 0] ++ [54, 0, 0, 0] ++
        [40, 0, 0, 0] ++ le_bytes 4 largura ++ le_bytes 4 altura ++ [1, 0] ++ [24, 0] ++
        [0, 0, 0, 0] ++ le_bytes 4 (image_size largura altura) ++
        [0, 0, 0, 0] ++ [0, 0, 0, 0] ++ [0, 0, 0, 0] ++ [0, 0, 0, 0]) ∧
    (write_bmp_header f largura altura).2.bytes.length = f.bytes.length + 54 ∧
    read_le ((write_bmp_header f largura altura).2.bytes.drop f.bytes.length) 2 4 =
      (filesize largura altura).toNat ∧
    read_le ((write_bmp_header f largura altura).2.bytes.drop f.bytes.length) 18 4 =
      (largura % 4294967296).toNat ∧
    read_le ((write_bmp_header f largura altura).2.bytes.drop f.bytes.length) 22 4 =
      (altura % 4294967296).toNat ∧
    read_le ((write_bmp_header f largura altura).2.bytes.drop f.bytes.length) 34 4 =
      (image_size largura altura).toNat ∧
    ((write_bmp_header (fopen_w 54) 8 4).2.bytes.take 2 = [66, 77] ∧
      read_le (write_bmp_header (fopen_w 54) 8 4).2.bytes 18 4 = 8 ∧
      read_le (write_bmp_header (fopen_w 54) 8 4).2.bytes 22 4 = 4 ∧
      read_le (write_bmp_header (fopen_w 54) 8 4).2.bytes 28 2 = 24 ∧
      read_le (write_bmp_header (fopen_w 54) 8 4).2.bytes 30 4 = 0) := by
  rw [write_bmp_header_fits f largura altura hroom]
  have hdrop : (f.bytes ++ header_bytes largura altura).drop f.bytes.length =
      header_bytes largura altura := List.drop_left _ _
  refine ⟨rfl, ?_, ?_, ?_, ?_, ?_, ?_, ?_⟩
  · show f.bytes ++ header_bytes largura altura = _
    congr 1
  · show (f.bytes ++ header_bytes largura altura).length = _
    rw [List.length_append, header_bytes_length]
  · show read_le ((f.bytes ++ header_bytes largura altura).drop f.bytes.length) 2 4 = _
    rw [hdrop]
    exact header_field_filesize largura altura
  · show read_le ((f.bytes ++ header_bytes largura altura).drop f.bytes.length) 18 4 = _
    rw [hdrop]
    exact header_field_width largura altura
  · show read_le ((f.bytes ++ header_bytes largura altura).drop f.bytes.length) 22 4 = _
    rw [hdrop]
    exact header_field_height largura altura
  · show read_le ((f.bytes ++ header_bytes largura altura).drop f.bytes.length) 34 4 = _
    rw [hdrop]
    exact header_field_image_size largura altura
  · decide

/-- Witness of C6: the header of the 8 x 4 image written to an empty stream
with room for 54 bytes. -/
theorem write_bmp_header_layout_witness :
    (write_bmp_header (fopen_w 54) 8 4).1 = 0 ∧
    (write_bmp_header (fopen_w 54) 8 4).2.bytes.length = (fopen_w 54).bytes.length + 54 :=
  have h := write_bmp_header_layout (fopen_w 54) 8 4 (by decide)
  ⟨h.1, h.2.2.1⟩

/-! ## The assembled output: claim C7 -/

theorem run_range_in_range (fm : FloatModel) {largura altura start end_ : Int}
    (hw : 0 ≤ largura) (hs : 0 ≤ start) (hse : start ≤ end_) (he : end_ ≤ altura)
    (hfit : (end_ - start) * largura * 3 ≤ 2147483647) :
    run_range fm largura altura start end_ =
      some { exit_status := 0
             written := block_bytes fm largura altura start end_
             stderr := [] } := by
  obtain ⟨h1, _, h3, h4⟩ := render_block_in_range fm hw hs hse he hfit
  have htake : (block_bytes fm largura altura start end_).take
      (area largura start end_).toNat = block_bytes fm largura altura start end_ := by
    apply List.take_of_length_le
    rw [block_bytes_length, area_toNat largura start end_ hw hse hfit]
    exact Nat.le_of_eq (by ring)
  unfold run_range
  simp only []
  rw [h4, h1, h3, htake]
  rfl

theorem written_in_range (fm : FloatModel) {largura altura start end_ : Int}
    (hw : 0 ≤ largura) (hs : 0 ≤ start) (hse : start ≤ end_) (he : end_ ≤ altura)
    (hfit : (end_ - start) * largura * 3 ≤ 2147483647) :
    written_bytes fm largura altura start end_ =
      block_bytes fm largura altura start end_ := by
  unfold written_bytes
  rw [run_range_in_range fm hw hs hse he hfit]

/-- The assembled output of `size` processes for a height whose `area` fits in
an `int`: the header followed by all rows of the image, without row
padding. -/
theorem assembled_output_eq (fm : FloatModel) (H W : Int) (hH : 1 ≤ H) (hmax : H ≤ 18918)
    (hW : 1 ≤ W) (room : Nat) (hroom : 54 ≤ room) :
    assembled_output fm H W room = header_bytes (2 * H) H ++ block_bytes fm (2 * H) H 0 H := by
  have hH0 : (0 : Int) ≤ H := by omega
  have hmany : (List.range W.toNat).flatMap (fun r : Nat =>
      written_bytes fm (2 * H) H (start H W r) (end_ H W r)) =
      (List.range W.toNat).flatMap
        (fun r : Nat => block_bytes fm (2 * H) H (start H W r) (start H W ((r : Int) + 1))) := by
    apply List.flatMap_congr
    intro r hr
    rw [List.mem_range] at hr
    obtain ⟨b0, b1, b2⟩ := start_bounds hH0 hW (show (0 : Int) ≤ r by omega)
      (show (r : Int) < W by omega)
    show written_bytes fm (2 * H) H (start H W r) (end_ H W r) = _
    rw [written_in_range fm (show 0 ≤ 2 * H by omega) b0 b1 b2
      (height_fits hH hmax (by omega)), end_eq_start_succ]
  unfold assembled_output
  rw [width_int hH hmax, hmany, flatMap_blocks fm H W hH0 hW, Int.toNat_of_nonneg (by omega),
    start_size hH0 hW, write_bmp_header_fits _ _ _ hroom]
  rfl

/-- C7 at the failing input `N = 1` with one process (a 2 x 1 image): the
assembled output has 60 bytes, the header and the 6 unpadded pixel bytes,
while `54 + padded row bytes * height` is 62, which is also the file size the
header itself declares. -/
theorem assembled_length_unpadded :
    (assembled_output fixed16 1 1 54).length = 60 ∧
    54 + round_up4 (2 * 1 * 3) * 1 = 62 ∧
    filesize (2 * 1) 1 = 62 := by
  refine ⟨?_, by decide, by decide⟩
  rw [assembled_output_eq fixed16 1 1 (by decide) (by decide) (by decide) 54 (by decide),
    List.length_append, header_bytes_length, block_bytes_length]
  decide

/-! ## The header fields: claims C8 and C9 -/

/-- C8 at the failing input `largura = 2`, `altura = 1` (the image of `N = 1`):
the image-size field holds 6, the unpadded `2 * 1 * 3`, while the padded row
length times the height is 8; the file-size field of the same header holds
`54 + 8`. -/
theorem image_size_field_unpadded :
    read_le (write_bmp_header (fopen_w 54) 2 1).2.bytes 34 4 = 6 ∧
    round_up4 (2 * 3) * 1 = 8 ∧
    read_le (write_bmp_header (fopen_w 54) 2 1).2.bytes 2 4 = 62 := by
  decide

theorem to_uint_wrap_int (z : Int) : to_uint (wrap_int z) = z % 4294967296 := by
  unfold to_uint wrap_int
  omega

theorem row_size_in_bytes_eq (largura : Int) (hw : 0 ≤ largura) (hw3 : largura * 3 < 2147483648) :
    row_size_in_bytes largura = round_up4 (largura * 3) := by
  have e : wrap_int (largura * 3) = largura * 3 := by unfold wrap_int; omega
  unfold row_size_in_bytes
  simp only []
  rw [e]
  unfold c_mod
  rw [Int.tmod_eq_emod (by omega) (by decide)]
  have e2 : wrap_int (4 - largura * 3 % 4) = 4 - largura * 3 % 4 := by unfold wrap_int; omega
  rw [e2, to_uint_wrap_int]
  unfold round_up4
  split_ifs with h
  · rw [add_zero, Int.emod_eq_of_lt (by omega) (by omega)]
    omega
  · rw [Int.emod_eq_of_lt (by omega) (by omega)]
    omega

/-- C9, amended: for every width `>= 1` whose `int` product `width * 3` does
not overflow (`width * 3 < 2^31`) and every height `>= 1` with
`54 + padded * height < 2^32`, the file-size field written by
`write_bmp_header` equals `54 + padded * height`, where `padded` is
`width * 3` rounded up to a multiple of 4. -/
theorem filesize_field_padded (largura altura : Int) (hw : 1 ≤ largura)
    (hw3 : largura * 3 < 2147483648) (hh : 1 ≤ altura)
    (hfit : 54 + round_up4 (largura * 3) * altura < 4294967296) :
    filesize largura altura = 54 + round_up4 (largura * 3) * altura ∧
    read_le (write_bmp_header (fopen_w 54) largura altura).2.bytes 2 4 =
      (54 + round_up4 (largura * 3) * altura).toNat := by
  have hR : 4 ≤ round_up4 (largura * 3) := by unfold round_up4; omega
  have hP : altura ≤ round_up4 (largura * 3) * altura := by nlinarith
  have ha : to_uint altura = altura := by unfold to_uint; omega
  have hf : filesize largura altura = 54 + round_up4 (largura * 3) * altura := by
    unfold filesize
    simp only []
    rw [row_size_in_bytes_eq largura (by omega) hw3, ha]
    generalize round_up4 (largura * 3) * altura = P at *
    have e1 : to_uint P = P := by unfold to_uint; omega
    have e2 : to_size_t (P * 1) = P := by unfold to_size_t; omega
    have e3 : (54 + wrap_int P) % 4294967296 = 54 + P := by unfold wrap_int; omega
    rw [e1, e2, to_uint_wrap_int, e3]
  refine ⟨hf, ?_⟩
  rw [write_bmp_header_fits _ _ _ (by decide)]
  show read_le ([] ++ header_bytes largura altura) 2 4 = _
  rw [List.nil_append, header_field_filesize, hf]

/-- Witness of C9 (amended) for the 8 x 4 image. -/
theorem filesize_field_padded_witness :
    filesize 8 4 = 54 + round_up4 (8 * 3) * 4 :=
  (filesize_field_padded 8 4 (by decide) (by decide) (by decide) (by decide)).1

/-- C9 as stated fails at `width = 715827883`, `height = 1`: the bound
`54 + padded * height < 2^32` holds, but `largura * 3` overflows `int`, the
remainder is taken of a negative number, and the file-size field holds
`2147483710` instead of `54 + padded * height = 2147483706`. -/
theorem filesize_field_counterexample :
    (1 : Int) ≤ 715827883 ∧ (1 : Int) ≤ 1 ∧
    54 + round_up4 (715827883 * 3) * 1 < 4294967296 ∧
    54 + round_up4 (715827883 * 3) * 1 = 2147483706 ∧
    read_le (write_bmp_header (fopen_w 54) 715827883 1).2.bytes 2 4 = 2147483710 ∧
    filesize 715827883 1 ≠ 54 + round_up4 (715827883 * 3) * 1 := by
  decide

/-! ## The render loop on arbitrary rows -/

theorem diag_length (fm : FloatModel) (largura altura x i : Int) (rgb : Rgb)
    (hx0 : 0 ≤ x) (hx : x < largura) :
    (compute_julia_pixel fm x i largura altura (fm.toF (fm.dlit 10 1)) rgb).diag.length =
      if bad_row altura i then 1 else 0 := by
  unfold compute_julia_pixel bad_row
  by_cases h : i < 0 ∨ altura ≤ i
  · rw [if_pos (by omega)]
    simp [h]
  · rw [if_neg (by omega)]
    simp [h]

theorem fold_pixels_counts (fm : FloatModel) (largura altura i : Int) :
    ∀ (m k : Nat) (st : RenderState) (pre : List Nat) (n : Nat),
      Shaped st pre (n + 3 * m) → k + m ≤ largura.toNat →
      ∃ post : List Nat, post.length = 3 * m ∧
        Shaped ((List.range' k m).foldl
          (fun s (x : Nat) => pixel_body fm largura altura i (3 * (x : Int)) s) st)
          (pre ++ post) n ∧
        ((List.range' k m).foldl
          (fun s (x : Nat) => pixel_body fm largura altura i (3 * (x : Int)) s)
            st).stderr.length = st.stderr.length + (if bad_row altura i then m else 0) := by
  intro m
  induction m with
  | zero =>
    intro k st pre n h _
    exact ⟨[], rfl, by simpa using h, by simp⟩
  | succ m ih =>
    intro k st pre n h hk
    have h' : Shaped st pre (n + 3 * m + 3) := by
      have e : n + 3 * (m + 1) = n + 3 * m + 3 := by ring
      rw [e] at h
      exact h
    obtain ⟨s1, _, e1⟩ := pixel_body_shaped fm largura altura i (3 * (k : Int)) h'
    obtain ⟨post, hl, s2, e2⟩ := ih (k + 1) _ _ n s1 (by omega)
    rw [List.range'_succ, List.foldl_cons]
    refine ⟨(compute_julia_pixel fm (c_div (3 * (k : Int)) 3) i largura altura
      (fm.toF (fm.dlit 10 1)) st.rgb).rgb.bytes ++ post, ?_, ?_, ?_⟩
    · rw [List.length_append, hl]
      show 3 + 3 * m = 3 * (m + 1)
      omega
    · rw [← List.append_assoc]
      exact s2
    · rw [e2, e1, List.length_append, c_div_three,
        diag_length fm largura altura k i st.rgb (by omega) (by omega)]
      split_ifs <;> omega

theorem fold_rows_counts (fm : FloatModel) (largura altura start : Int) :
    ∀ (m k : Nat) (st : RenderState) (pre : List Nat) (n : Nat),
      Shaped st pre (n + m * (3 * largura.toNat)) →
      ∃ post : List Nat, post.length = m * (3 * largura.toNat) ∧
        Shaped ((List.range' k m).foldl
          (fun s (y : Nat) => fold_cols fm largura altura (start + (y : Int)) s) st)
          (pre ++ post) n ∧
        ((List.range' k m).foldl
          (fun s (y : Nat) => fold_cols fm largura altura (start + (y : Int)) s)
            st).stderr.length = st.stderr.length + largura.toNat *
              (List.range' k m).countP (fun y : Nat => bad_row altura (start + (y : Int))) := by
  intro m
  induction m with
  | zero =>
    intro k st pre n h
    exact ⟨[], by simp, by simpa using h, by simp⟩
  | succ m ih =>
    intro k st pre n h
    have h' : Shaped st pre (n + m * (3 * largura.toNat) + 3 * largura.toNat) := by
      have e : n + (m + 1) * (3 * largura.toNat) =
          n + m * (3 * largura.toNat) + 3 * largura.toNat := by ring
      rw [e] at h
      exact h
    obtain ⟨p1, l1, s1, e1⟩ := fold_pixels_counts fm largura altura (start + (k : Int))
      largura.toNat 0 st pre _ h' (by omega)
    obtain ⟨p2, l2, s2, e2⟩ := ih (k + 1) (fold_cols fm largura altura (start + (k : Int)) st)
      (pre ++ p1) n s1
    rw [List.range'_succ, List.foldl_cons, List.countP_cons]
    unfold fold_cols at e2 s2 ⊢
    refine ⟨p1 ++ p2, ?_, ?_, ?_⟩
    · rw [List.length_append, l1, l2]
      ring
    · rw [← List.append_assoc]
      exact s2
    · rw [e2, e1]
      split_ifs
      · rw [Nat.mul_add, Nat.mul_one]
        omega
      · rfl

theorem render_block_counts (fm : FloatModel) (largura altura start end_ : Int)
    (hw : 0 ≤ largura) (hse : start ≤ end_)
    (hfit : (end_ - start) * largura * 3 ≤ 2147483647) :
    (render_block fm largura altura start end_).fault = false ∧
    (render_block fm largura altura start end_).local_i = (end_ - start) * largura * 3 ∧
    (render_block fm largura altura start end_).pixel_array.length =
      (area largura start end_).toNat ∧
    (render_block fm largura altura start end_).stderr.length = largura.toNat *
      (List.range (end_ - start).toNat).countP
        (fun y : Nat => bad_row altura (start + (y : Int))) := by
  rcases eq_or_lt_of_le hse with heq | hlt
  · subst heq
    rw [render_block_empty, area_empty]
    simp
  have h3 := width_fits hw hlt hfit
  have h1 : ((end_ - start).toNat : Int) = end_ - start := Int.toNat_of_nonneg (by omega)
  have h2 : (largura.toNat : Int) = largura := Int.toNat_of_nonneg hw
  have hbound : (end_ - start).toNat * (3 * largura.toNat) ≤ 2147483647 := by
    have : (((end_ - start).toNat * (3 * largura.toNat) : Nat) : Int) ≤ 2147483647 := by
      push_cast
      rw [h1, h2]
      linarith
    exact_mod_cast this
  have hshape : Shaped
      { pixel_array := List.replicate (area largura start end_).toNat 0
        local_i := 0, rgb := ⟨0, 0, 0⟩, stderr := [], fault := false } []
      (0 + (end_ - start).toNat * (3 * largura.toNat)) := by
    refine ⟨?_, rfl, rfl, ?_⟩
    · rw [area_toNat largura start end_ hw hse hfit]
      simp
    · simpa using hbound
  obtain ⟨post, hl, ⟨s1, s2, s3, _⟩, e1⟩ := fold_rows_counts fm largura altura start
    (end_ - start).toNat 0 _ [] 0 hshape
  rw [render_block_eq_foldl fm largura altura start end_ hw h3]
  refine ⟨s3, ?_, ?_, ?_⟩
  · rw [s2, List.nil_append, hl]
    push_cast
    rw [h1, h2]
    ring
  · rw [s1, List.nil_append, List.length_append, hl, List.length_replicate,
      area_toNat largura start end_ hw hse hfit]
    rfl
  · rw [e1, List.range_eq_range']
    simp

/-! ## The render loop and the error code: claim C10 -/

theorem atoi_conversion :
    atoi "18918" = 18918 ∧ atoi "  -7x" = -7 ∧ atoi "abc" = 0 ∧
    atoi "2147483648" = -2147483648 ∧ atoi "4294967297" = 1 := by decide

theorem main_no_argument (fm : FloatModel) (argv : List String) (rank size : Int)
    (fopen_result : Option Nat) (h : argv.length ≤ 1) :
    main fm argv rank size fopen_result =
      some { exit_status := -1, usage := true, render := none, header := none,
             written := none } := by
  match argv, h with
  | [], _ => rfl
  | [_], _ => rfl

theorem main_bad_argument (fm : FloatModel) (prog arg1 : String) (rest : List String)
    (rank size : Int) (fopen_result : Option Nat) (h : atoi arg1 < 1) :
    main fm (prog :: arg1 :: rest) rank size fopen_result =
      some { exit_status := -1, usage := true, render := none, header := none,
             written := none } := by
  unfold main
  simp only []
  rw [if_pos h]

theorem main_rank_zero (fm : FloatModel) (prog arg1 : String) (rest : List String)
    (size : Int) (device_room : Nat) (h : 1 ≤ atoi arg1)
    (hfault : (main_render fm (atoi arg1) 0 size).fault = false) :
    main fm (prog :: arg1 :: rest) 0 size (some device_room) =
      some { exit_status := 0, usage := false
             render := some (main_render fm (atoi arg1) 0 size)
             header := some (write_bmp_header (fopen device_room)
               (wrap_int (2 * atoi arg1)) (atoi arg1))
             written := some ((main_render fm (atoi arg1) 0 size).pixel_array.take
               (area (wrap_int (2 * atoi arg1)) (start (atoi arg1) size 0)
                 (end_ (atoi arg1) size 0)).toNat) } := by
  unfold main_render at hfault
  unfold main
  simp only []
  rw [if_neg (by omega), hfault, if_neg (by decide), if_pos trivial]
  rfl

theorem main_fopen_fails (fm : FloatModel) (prog arg1 : String) (rest : List String)
    (size : Int) (h : 1 ≤ atoi arg1) :
    main fm (prog :: arg1 :: rest) 0 size none = none := by
  unfold main
  simp only []
  rw [if_neg (by omega)]
  split_ifs <;> rfl

theorem main_good_argument (fm : FloatModel) (prog arg1 : String) (rest : List String)
    (rank size : Int) (fopen_result : Option Nat) (h : 1 ≤ atoi arg1) :
    ∀ run, main fm (prog :: arg1 :: rest) rank size fopen_result = some run →
      run.exit_status = 0 ∧ run.usage = false ∧
      run.render = some (main_render fm (atoi arg1) rank size) := by
  intro run hrun
  unfold main at hrun
  simp only [] at hrun
  rw [if_neg (by omega)] at hrun
  split_ifs at hrun with hf hr
  · cases fopen_result with
    | none => exact absurd hrun (by simp)
    | some f =>
      simp only [Option.some.injEq] at hrun
      subst hrun
      exact ⟨rfl, rfl, rfl⟩
  · simp only [Option.some.injEq] at hrun
    subst hrun
    exact ⟨rfl, rfl, rfl⟩

/-- C11: `main` takes the early failure of lines 91-94 (it prints the usage
message and returns `-1`, a non-zero exit status, with no partition computed,
no pixel rendered and no output stream opened) exactly when the command line
has no argument or its first argument parses with `atoi` to an integer below
1; for an argument that parses to `N >= 1` the early failure is not taken,
and a run that returns has rendered its rows for the height `N`. -/
theorem main_argument_check (fm : FloatModel) (argv : List String) (rank size : Int)
    (fopen_result : Option Nat) :
    (main fm argv rank size fopen_result =
        some { exit_status := -1, usage := true, render := none, header := none,
               written := none } ↔
      (argv.length ≤ 1 ∨ ∃ arg1, argv[1]? = some arg1 ∧ atoi arg1 < 1)) ∧
    (∀ arg1 run, argv[1]? = some arg1 → 1 ≤ atoi arg1 →
      main fm argv rank size fopen_result = some run →
      run.exit_status = 0 ∧ run.usage = false ∧
        run.render = some (main_render fm (atoi arg1) rank size)) := by
  match argv with
  | [] =>
    refine ⟨⟨fun _ => Or.inl (by simp), fun _ => rfl⟩, ?_⟩
    intro arg1 run h
    simp at h
  | [_] =>
    refine ⟨⟨fun _ => Or.inl (by simp), fun _ => rfl⟩, ?_⟩
    intro arg1 run h
    simp at h
  | prog :: a :: rest =>
    refine ⟨⟨?_, ?_⟩, ?_⟩
    · intro hm
      refine Or.inr ⟨a, by simp, ?_⟩
      by_contra hge
      have h := (main_good_argument fm prog a rest rank size fopen_result (by omega) _ hm).1
      exact absurd h (by decide)
    · rintro (hl | ⟨arg1, h1, h2⟩)
      · simp at hl
      · simp at h1
        subst h1
        exact main_bad_argument fm prog a rest rank size fopen_result h2
    · intro arg1 run h1 h2 hm
      simp at h1
      subst h1
      exact main_good_argument fm prog a rest rank size fopen_result h2 run hm

/-- C12: `main` tests neither the pointer returned by `fopen` nor the value
returned by `write_bmp_header`.  For `N = 1` on one process: when `fopen`
fails, the null pointer is passed on to `fwrite` and the run has no defined
result, so `main` does not return a non-zero status; and on every stream that
`fopen` returns, whatever room the device behind it has, the 54 header bytes
fit the stream buffer, `write_bmp_header` returns 0 and `main` returns 0. -/
theorem main_header_unchecked :
    main fixed16 ["julia", "1"] 0 1 none = none ∧
    ∀ device_room : Nat, ∃ run,
      main fixed16 ["julia", "1"] 0 1 (some device_room) = some run ∧
      run.exit_status = 0 ∧ run.header.map Prod.fst = some 0 := by
  have hN : atoi "1" = 1 := by decide
  refine ⟨main_fopen_fails fixed16 "julia" "1" [] 1 (by decide), ?_⟩
  intro device_room
  have hfault : (main_render fixed16 (atoi "1") 0 1).fault = false := by
    have hw : wrap_int (2 * 1) = 2 := by decide
    have hs : start 1 1 0 = 0 := by decide
    have he : end_ 1 1 0 = 1 := by decide
    unfold main_render
    rw [hN, hw, hs, he]
    exact (@render_block_in_range fixed16 2 1 0 1 (by decide) (by decide) (by decide)
      (by decide) (by decide)).2.2.2
  refine ⟨_, main_rank_zero fixed16 "julia" "1" [] 1 device_room (by decide) hfault, rfl, ?_⟩
  show (some (write_bmp_header (fopen device_room) (wrap_int (2 * atoi "1"))
    (atoi "1"))).map Prod.fst = some 0
  rw [write_bmp_header_fits _ _ _ (by unfold fopen fopen_w BUFSIZ; show 54 ≤ 256 + device_room; omega)]
  rfl
/-! ## The renderer: claims C14, C16 and C17 -/

/-- C14: `compute_julia_pixel` is deterministic.  Its result is a function of
its arguments alone, and for in-range coordinates the return code and the 3
bytes of `rgb` do not depend on the prior contents of `rgb`, in particular
not on what an earlier call has left there: two calls with the same
`(x, y, largura, altura, tint_bias)` return the same code, 0, and the same
bytes. -/
theorem compute_julia_pixel_deterministic (fm : FloatModel) (x y largura altura : Int)
    (tint_bias : fm.F) (hx0 : 0 ≤ x) (hx : x < largura) (hy0 : 0 ≤ y) (hy : y < altura) :
    (∀ rgb₁ rgb₂ : Rgb,
      (compute_julia_pixel fm x y largura altura tint_bias rgb₁).ret =
        (compute_julia_pixel fm x y largura altura tint_bias rgb₂).ret ∧
      (compute_julia_pixel fm x y largura altura tint_bias rgb₁).rgb =
        (compute_julia_pixel fm x y largura altura tint_bias rgb₂).rgb) ∧
    (∀ (x' y' largura' altura' : Int) (tint' : fm.F) (rgb₀ rgb : Rgb),
      compute_julia_pixel fm x y largura altura tint_bias
          (compute_julia_pixel fm x' y' largura' altura' tint' rgb₀).rgb =
        compute_julia_pixel fm x y largura altura tint_bias rgb) ∧
    (∀ rgb : Rgb, (compute_julia_pixel fm x y largura altura tint_bias rgb).ret = 0) := by
  have h : ∀ rgb : Rgb, compute_julia_pixel fm x y largura altura tint_bias rgb =
      { ret := 0, rgb := paint fm tint_bias (julia_iter fm x y largura altura), diag := [] } := by
    intro rgb
    unfold compute_julia_pixel
    rw [if_neg (by omega)]
  refine ⟨fun r₁ r₂ => ?_, fun x' y' l' a' t' r₀ r => ?_, fun r => ?_⟩
  · rw [h r₁, h r₂]
    exact ⟨rfl, rfl⟩
  · rw [h, h r]
  · rw [h r]

/-- Witness of C14: pixel `(3, 2)` of the 8 x 4 image, after a call for the
out-of-range pixel `(-1, 0)` and after a call for pixel `(7, 3)`. -/
theorem compute_julia_pixel_deterministic_witness :
    compute_julia_pixel fixed16 3 2 8 4 (fixed16.ofInt 1)
        (compute_julia_pixel fixed16 (-1) 0 8 4 (fixed16.ofInt 1) ⟨9, 9, 9⟩).rgb =
      compute_julia_pixel fixed16 3 2 8 4 (fixed16.ofInt 1)
        (compute_julia_pixel fixed16 7 3 8 4 (fixed16.ofInt 1) ⟨0, 0, 0⟩).rgb :=
  ((compute_julia_pixel_deterministic fixed16 3 2 8 4 (fixed16.ofInt 1) (by decide)
    (by decide) (by decide) (by decide)).2.1 (-1) 0 8 4 (fixed16.ofInt 1) ⟨9, 9, 9⟩ _)

theorem julia_iter_eq (fm : FloatModel) (x y largura altura : Int) :
    julia_iter fm x y largura altura =
      julia_loop fm (fm.toF (fm.dlit (-79) 2)) (fm.toF (fm.dlit 15 2)) 300
        (julia_start fm x y largura altura).1 (julia_start fm x y largura altura).2 := rfl

theorem julia_loop_iterations (fm : FloatModel) (julia_real julia_img : fm.F) :
    ∀ (n : Nat) (z : fm.F × fm.F), ∃ k : Nat, k ≤ n ∧
      julia_loop fm julia_real julia_img n z.1 z.2 = n - k ∧
      (∀ j : Nat, j < k → julia_test fm ((julia_step fm julia_real julia_img)^[j] z) = true) ∧
      (k = n ∨ julia_test fm ((julia_step fm julia_real julia_img)^[k] z) = false) := by
  intro n
  induction n with
  | zero =>
    intro z
    exact ⟨0, le_refl _, rfl, fun j hj => absurd hj (Nat.not_lt_zero j), Or.inl rfl⟩
  | succ m ih =>
    intro z
    by_cases ht : julia_test fm z = true
    · obtain ⟨k, hk, hloop, hbefore, hstop⟩ := ih (julia_step fm julia_real julia_img z)
      refine ⟨k + 1, by omega, ?_, ?_, ?_⟩
      · have e : julia_loop fm julia_real julia_img (m + 1) z.1 z.2 =
            julia_loop fm julia_real julia_img m (julia_step fm julia_real julia_img z).1
              (julia_step fm julia_real julia_img z).2 := by
          rw [julia_loop]
          exact if_pos ht
        rw [e, hloop]
        omega
      · intro j hj
        cases j with
        | zero => exact ht
        | succ i =>
          rw [Function.iterate_succ_apply]
          exact hbefore i (by omega)
      · rcases hstop with h | h
        · exact Or.inl (by omega)
        · exact Or.inr (by rw [Function.iterate_succ_apply]; exact h)
    · refine ⟨0, by omega, ?_, fun j hj => absurd hj (Nat.not_lt_zero j), Or.inr ?_⟩
      · rw [julia_loop]
        exact if_neg ht
      · simpa using ht

/-- C16: the escape-time loop of `compute_julia_pixel` stops after at most
300 iterations.  It performs `k <= 300` iterations, where the test
`img * img + real * real < 2 * 2` of line 27 holds before each of them and
either `k = 300` or the test fails on the values reached after `k`
iterations (the first iteration at which `|z|^2 >= 4`); the counter ends at
`num_iter = 300 - k`, so `0 <= num_iter <= 300` and `300 - num_iter` is the
number of iterations performed. -/
theorem julia_loop_terminates (fm : FloatModel) (x y largura altura : Int) :
    ∃ k : Nat, k ≤ 300 ∧
      julia_iter fm x y largura altura = 300 - k ∧
      julia_iter fm x y largura altura ≤ 300 ∧
      300 - julia_iter fm x y largura altura = k ∧
      (∀ j : Nat, j < k → julia_test fm
        ((julia_step fm (fm.toF (fm.dlit (-79) 2)) (fm.toF (fm.dlit 15 2)))^[j]
          (julia_start fm x y largura altura)) = true) ∧
      (k = 300 ∨ julia_test fm
        ((julia_step fm (fm.toF (fm.dlit (-79) 2)) (fm.toF (fm.dlit 15 2)))^[k]
          (julia_start fm x y largura altura)) = false) := by
  obtain ⟨k, hk, hloop, hbefore, hstop⟩ := julia_loop_iterations fm
    (fm.toF (fm.dlit (-79) 2)) (fm.toF (fm.dlit 15 2)) 300 (julia_start fm x y largura altura)
  rw [← julia_iter_eq] at hloop
  exact ⟨k, hk, hloop, by omega, by omega, hbefore, hstop⟩

theorem paint_zero (fm : FloatModel) (tint_bias : fm.F) :
    paint fm tint_bias 0 = ⟨200, 100, 100⟩ := by
  unfold paint
  simp only [if_true]
  rw [fm.toUChar_dOfInt 200 (by decide) (by decide),
    fm.toUChar_dOfInt 100 (by decide) (by decide)]
  rfl

/-- C17: for every in-range input whose loop uses the full budget of 300
iterations (the counter `num_iter` reaches 0), `compute_julia_pixel` returns 0
and writes `rgb = (200, 100, 100)`, whatever `x`, `y`, the image size and
`tint_bias`. -/
theorem flat_colour (fm : FloatModel) (x y largura altura : Int) (tint_bias : fm.F)
    (rgb : Rgb) (hx0 : 0 ≤ x) (hx : x < largura) (hy0 : 0 ≤ y) (hy : y < altura)
    (hfull : julia_iter fm x y largura altura = 0) :
    (compute_julia_pixel fm x y largura altura tint_bias rgb).ret = 0 ∧
    (compute_julia_pixel fm x y largura altura tint_bias rgb).rgb = ⟨200, 100, 100⟩ := by
  unfold compute_julia_pixel
  rw [if_neg (by omega), hfull, paint_zero]
  exact ⟨rfl, rfl⟩

set_option maxRecDepth 100000 in
/-- Witness of C17: pixel `(9, 5)` of the 16 x 8 image does not escape within
300 iterations in the fixed-point instance. -/
theorem flat_colour_witness :
    julia_iter fixed16 9 5 16 8 = 0 ∧
    (compute_julia_pixel fixed16 9 5 16 8 (fixed16.ofInt 1) ⟨0, 0, 0⟩).rgb = ⟨200, 100, 100⟩ :=
  have h : julia_iter fixed16 9 5 16 8 = 0 := by decide
  ⟨h, (flat_colour fixed16 9 5 16 8 (fixed16.ofInt 1) ⟨0, 0, 0⟩ (by decide) (by decide)
    (by decide) (by decide) h).2⟩

/-! ## The calls made by the render loop: claim C15 -/

theorem store_stderr (st : RenderState) (v : Nat) : (store st v).stderr = st.stderr := by
  unfold store
  split_ifs <;> rfl

theorem pixel_body_quiet (fm : FloatModel) (largura altura i j : Int) (st : RenderState)
    (hj0 : 0 ≤ j) (hj : j < largura * 3) (hi0 : 0 ≤ i) (hi : i < altura)
    (hq : st.stderr = []) : (pixel_body fm largura altura i j st).stderr = [] := by
  have hx : c_div j 3 = j / 3 := by
    unfold c_div
    exact Int.tdiv_eq_ediv hj0 (by decide)
  unfold pixel_body
  split_ifs
  · exact hq
  · rw [store_stderr, store_stderr, store_stderr, hx,
      pixel_in_range fm largura altura (j / 3) i st.rgb (by omega) (by omega) hi0 hi]
    simpa using hq

theorem col_loop_quiet (fm : FloatModel) (largura altura i : Int) (hw : 0 ≤ largura)
    (hi0 : 0 ≤ i) (hi : i < altura) :
    ∀ (n : Nat) (j : Int) (st : RenderState), (wrap_int (largura * 3) - j).toNat ≤ n →
      0 ≤ j → st.stderr = [] → (col_loop fm largura altura i j st).stderr = [] := by
  have hbound : wrap_int (largura * 3) ≤ largura * 3 := by
    unfold wrap_int
    omega
  intro n
  induction n with
  | zero =>
    intro j st hn _ hq
    rw [col_loop_done fm largura altura i j st (by omega)]
    exact hq
  | succ m ih =>
    intro j st hn hj0 hq
    rw [col_loop]
    split
    · have hb := pixel_body_quiet fm largura altura i j st hj0 (by omega) hi0 hi hq
      split
      · exact ih (j + 3) _ (by omega) (by omega) hb
      · exact hb
    · exact hq

theorem row_loop_quiet (fm : FloatModel) (largura altura end_ : Int) (hw : 0 ≤ largura)
    (he : end_ ≤ altura) :
    ∀ (n : Nat) (i : Int) (st : RenderState), (end_ - i).toNat ≤ n →
      0 ≤ i → st.stderr = [] → (row_loop fm largura altura end_ i st).stderr = [] := by
  intro n
  induction n with
  | zero =>
    intro i st hn _ hq
    rw [row_loop_done fm largura altura end_ i st (by omega)]
    exact hq
  | succ m ih =>
    intro i st hn hi0 hq
    rw [row_loop]
    split
    · exact ih (i + 1) _ (by omega) (by omega)
        (col_loop_quiet fm largura altura i hw hi0 (by omega) _ 0 st (le_refl _)
          (le_refl _) hq)
    · exact hq

/-- C15, amended: for every height `H >= 1` whose width `2 * H` fits in an
`int` (`H <= 1073741823`), every worker count `W >= 1` and rank `0 <= r < W`,
the range satisfies `0 <= start <= end_ <= H`, the width computed by `main`
is `2 * H`, every call of `compute_julia_pixel` with `y` in `[start, end_)`
and `x = j / 3` in `[0, width)` returns 0 and prints nothing, and `stderr` is
empty when the render loop ends, also when the loop stops on a store outside
`pixel_array`: no call made by the loop takes the out-of-range branch.  When
moreover `area = (end_ - start) * 2H * 3` fits in an `int`, the loop runs its
body exactly for the rows `y = start .. end_ - 1` and the counters
`j = 3 * x`, `x = 0 .. width - 1`, and does not stop on a fault. -/
theorem render_calls_in_range (fm : FloatModel) (H W r : Int) (hH : 1 ≤ H)
    (hmax : H ≤ 1073741823) (hW : 1 ≤ W) (h0 : 0 ≤ r) (hr : r < W) :
    (0 ≤ start H W r ∧ start H W r ≤ end_ H W r ∧ end_ H W r ≤ H) ∧
    wrap_int (2 * H) = 2 * H ∧
    (∀ (k x : Nat) (rgb : Rgb), k < (end_ H W r - start H W r).toNat → x < (2 * H).toNat →
      c_div (3 * (x : Int)) 3 = x ∧ (0 ≤ (x : Int) ∧ (x : Int) < 2 * H) ∧
      (start H W r ≤ start H W r + (k : Int) ∧ start H W r + (k : Int) < end_ H W r) ∧
      (compute_julia_pixel fm (c_div (3 * (x : Int)) 3) (start H W r + (k : Int)) (2 * H) H
        (fm.toF (fm.dlit 10 1)) rgb).ret = 0 ∧
      (compute_julia_pixel fm (c_div (3 * (x : Int)) 3) (start H W r + (k : Int)) (2 * H) H
        (fm.toF (fm.dlit 10 1)) rgb).diag = []) ∧
    (main_render fm H r W).stderr = [] ∧
    ((end_ H W r - start H W r) * (2 * H) * 3 ≤ 2147483647 →
      (main_render fm H r W).fault = false ∧
      main_render fm H r W =
        (List.range' 0 (end_ H W r - start H W r).toNat).foldl
          (fun s (k : Nat) => (List.range' 0 (2 * H).toNat).foldl
            (fun s (x : Nat) => pixel_body fm (2 * H) H (start H W r + (k : Int))
              (3 * (x : Int)) s) s)
          { pixel_array := List.replicate (area (2 * H) (start H W r) (end_ H W r)).toNat 0
            local_i := 0
            rgb := ⟨0, 0, 0⟩
            stderr := []
            fault := false }) := by
  obtain ⟨b0, b1, b2⟩ := start_bounds (show (0 : Int) ≤ H by omega) hW h0 hr
  have hwidth : wrap_int (2 * H) = 2 * H := wrap_int_eq (by omega) (by omega)
  refine ⟨⟨b0, b1, b2⟩, hwidth, ?_, ?_, ?_⟩
  · intro k x rgb hk hx
    rw [c_div_three, pixel_in_range fm (2 * H) H x (start H W r + (k : Int)) rgb (by omega)
      (by omega) (by omega) (by omega)]
    exact ⟨rfl, ⟨by omega, by omega⟩, ⟨by omega, by omega⟩, rfl, rfl⟩
  · unfold main_render render_block
    rw [hwidth]
    exact row_loop_quiet fm (2 * H) H (end_ H W r) (by omega) b2 _ (start H W r) _
      (le_refl _) b0 rfl
  · intro hfit
    have hfault := (render_block_in_range fm (show 0 ≤ 2 * H by omega) b0 b1 b2 hfit).2.2.2
    unfold main_render
    rw [hwidth]
    refine ⟨hfault, ?_⟩
    rcases eq_or_lt_of_le b1 with heq | hlt
    · rw [← heq, render_block_empty, area_empty]
      simp
    · rw [render_block_eq_foldl fm (2 * H) H (start H W r) (end_ H W r) (by omega)
        (width_fits (by omega) hlt hfit)]
      rfl

/-- Witness of C15 (amended): rank 1 of 3 for the height 10. -/
theorem render_calls_in_range_witness :
    (0 ≤ start 10 3 1 ∧ start 10 3 1 ≤ end_ 10 3 1 ∧ end_ 10 3 1 ≤ 10) ∧
    (main_render fixed16 10 1 3).stderr = [] :=
  have h := render_calls_in_range fixed16 10 3 1 (by decide) (by decide) (by decide)
    (by decide) (by decide)
  ⟨h.1, h.2.2.2.1⟩

/-- C15 as stated fails for `H = 1610612736` on one process.  The `int` width
`2 * H` wraps to `-1073741824` and the loop bound `largura * 3` to
`1073741824`, so the loop body runs; its first call passes `x = 0`, which is
not below the width, takes the out-of-range branch, prints its diagnostic and
returns `-1`. -/
theorem render_calls_counterexample :
    wrap_int (2 * 1610612736) = -1073741824 ∧
    wrap_int (-1073741824 * 3) = 1073741824 ∧
    (start 1610612736 1 0 = 0 ∧ end_ 1610612736 1 0 = 1610612736) ∧
    (compute_julia_pixel fixed16 (c_div 0 3) 0 (-1073741824) 1610612736
      (fixed16.toF (fixed16.dlit 10 1)) ⟨0, 0, 0⟩).ret = -1 ∧
    (main_render fixed16 1610612736 0 1).stderr = [⟨0, 0, -1073741824, 1610612736⟩] := by
  have hw : wrap_int (2 * 1610612736) = -1073741824 := by decide
  have hs : start 1610612736 1 0 = 0 := by decide
  have he : end_ 1610612736 1 0 = 1610612736 := by decide
  refine ⟨hw, by decide, ⟨hs, he⟩, by decide, ?_⟩
  unfold main_render
  rw [hw, hs, he, render_block_no_room fixed16 (-1073741824) 1610612736 0 1610612736
    (by decide) (by decide) (by decide)]
  decide
/-! ## The padded row length: claim C18 -/

/-- C18: for every width `>= 0` whose product `width * 3` fits in an `int`,
`row_size_in_bytes` is the least multiple of 4 that is `>= width * 3`: it is
divisible by 4, lies between `width * 3` and `width * 3 + 3`, and equals
`width * 3` exactly when `width * 3` is a multiple of 4. -/
theorem row_size_least_multiple (largura : Int) (hw : 0 ≤ largura)
    (hw3 : largura * 3 ≤ 2147483647) :
    row_size_in_bytes largura % 4 = 0 ∧
    largura * 3 ≤ row_size_in_bytes largura ∧
    row_size_in_bytes largura ≤ largura * 3 + 3 ∧
    (row_size_in_bytes largura = largura * 3 ↔ largura * 3 % 4 = 0) ∧
    (∀ m : Int, m % 4 = 0 → largura * 3 ≤ m → row_size_in_bytes largura ≤ m) := by
  rw [row_size_in_bytes_eq largura hw (by omega)]
  unfold round_up4
  refine ⟨by omega, by omega, by omega, ⟨fun h => by omega, fun h => by omega⟩, ?_⟩
  intro m hm hle
  omega

/-- Witness of C18 at width 2: the row of 6 bytes is padded to 8. -/
theorem row_size_least_multiple_witness :
    row_size_in_bytes 2 % 4 = 0 ∧ (2 : Int) * 3 ≤ row_size_in_bytes 2 ∧
    row_size_in_bytes 2 ≤ 2 * 3 + 3 :=
  have h := row_size_least_multiple 2 (by decide) (by decide)
  ⟨h.1, h.2.1, h.2.2.1⟩

/-! ## Shape of the partition: claim C19 -/

theorem range_size {H W : Int} (hH : 0 ≤ H) (hW : 1 ≤ W) (r : Int) :
    end_ H W r - start H W r = H / W + (if r < H % W then 1 else 0) := by
  unfold end_
  rw [chunk_size_eq hH (by omega), remainder_eq hH (by omega)]
  ring

/-- C19: for every `H >= 1`, `W >= 1` and rank `0 <= r < W` the range
satisfies `0 <= start <= end_ <= H`; the range sizes are non-increasing in
the rank and any two of them differ by at most 1; and when `W > H` every
rank `r < H` gets the single row `[r, r+1)` while every rank `r >= H` gets the
empty range `[H, H)` and a buffer of length 0. -/
theorem partition_shape (fm : FloatModel) (H W r : Int) (hH : 1 ≤ H) (hW : 1 ≤ W)
    (h0 : 0 ≤ r) (hr : r < W) :
    (0 ≤ start H W r ∧ start H W r ≤ end_ H W r ∧ end_ H W r ≤ H) ∧
    (∀ r' : Int, r ≤ r' → r' < W →
      end_ H W r' - start H W r' ≤ end_ H W r - start H W r) ∧
    (∀ r' : Int, 0 ≤ r' → r' < W →
      (end_ H W r - start H W r) - (end_ H W r' - start H W r') ≤ 1 ∧
      (end_ H W r' - start H W r') - (end_ H W r - start H W r) ≤ 1) ∧
    (H < W → r < H → start H W r = r ∧ end_ H W r = r + 1) ∧
    (H < W → H ≤ r → start H W r = H ∧ end_ H W r = H ∧
      (main_render fm H r W).pixel_array.length = 0 ∧
      (main_render fm H r W).local_i = 0) := by
  have hH0 : (0 : Int) ≤ H := by omega
  refine ⟨start_bounds hH0 hW h0 hr, ?_, ?_, ?_, ?_⟩
  · intro r' hle _
    rw [range_size hH0 hW, range_size hH0 hW]
    split_ifs <;> omega
  · intro r' _ _
    rw [range_size hH0 hW, range_size hH0 hW]
    split_ifs <;> omega
  · intro hlt hrH
    have hd : H / W = 0 := Int.ediv_eq_zero_of_lt hH0 hlt
    have hm : H % W = H := Int.emod_eq_of_lt hH0 hlt
    unfold end_ start
    rw [chunk_size_eq hH0 (by omega), remainder_eq hH0 (by omega), hd, hm, if_pos hrH]
    omega
  · intro hlt hrH
    have hd : H / W = 0 := Int.ediv_eq_zero_of_lt hH0 hlt
    have hm : H % W = H := Int.emod_eq_of_lt hH0 hlt
    have hs : start H W r = H := by
      unfold start
      rw [chunk_size_eq hH0 (by omega), remainder_eq hH0 (by omega), hd, hm,
        if_neg (by omega)]
      omega
    have he : end_ H W r = H := by
      unfold end_
      rw [hs, chunk_size_eq hH0 (by omega), remainder_eq hH0 (by omega), hd, hm,
        if_neg (by omega)]
      omega
    refine ⟨hs, he, ?_, ?_⟩
    · unfold main_render
      rw [hs, he, render_block_empty]
      rfl
    · unfold main_render
      rw [hs, he, render_block_empty]

/-- Witness of C19: rank 3 of 5 for the height 2 (`W > H`, `r >= H`). -/
theorem partition_shape_witness :
    (0 ≤ start 2 5 3 ∧ start 2 5 3 ≤ end_ 2 5 3 ∧ end_ 2 5 3 ≤ 2) ∧
    (start 2 5 3 = 2 ∧ end_ 2 5 3 = 2 ∧ (main_render fixed16 2 3 5).pixel_array.length = 0 ∧
      (main_render fixed16 2 3 5).local_i = 0) :=
  have h := partition_shape fixed16 2 5 3 (by decide) (by decide) (by decide) (by decide)
  ⟨h.1, h.2.2.2.2 (by decide) (by decide)⟩

/-! ## `area` in 32 bits: claim C20 -/

/-- C20: with 32-bit `int` arithmetic, for every height `1 <= H <= 18918`,
every `W >= 1` and rank `0 <= r < W`, the value of `area` computed in `main`
does not overflow: it equals the mathematical value
`(end_ - start) * 2H * 3`, which is at most `2^31 - 1`, and the final write
index `local_i` equals it; for `H = 18919` and `W = 1` the mathematical value
`6 * H^2` exceeds `2^31 - 1` and the wrapped `int` value differs from it. -/
theorem area_no_overflow (fm : FloatModel) (H W r : Int) (hH : 1 ≤ H) (hmax : H ≤ 18918)
    (hW : 1 ≤ W) (h0 : 0 ≤ r) (hr : r < W) :
    area_int32 H W r = (end_ H W r - start H W r) * (2 * H) * 3 ∧
    0 ≤ area_int32 H W r ∧ area_int32 H W r ≤ 2147483647 ∧
    (main_render fm H r W).local_i = area_int32 H W r ∧
    (2147483647 < (6 : Int) * 18919 ^ 2 ∧ area_int32 18919 1 0 ≠ 6 * 18919 ^ 2) := by
  have hH0 : (0 : Int) ≤ H := by omega
  obtain ⟨b0, b1, b2⟩ := start_bounds hH0 hW h0 hr
  have hq0 : 0 ≤ H / W := Int.ediv_nonneg hH0 (by omega)
  have hq1 : H / W ≤ H := Int.ediv_le_self _ hH0
  have hm0 : 0 ≤ H % W := Int.emod_nonneg _ (by omega)
  have hprod0 : 0 ≤ H / W * r := Int.mul_nonneg hq0 h0
  have hstart : start H W r = H / W * r + (if r < H % W then r else H % W) := by
    unfold start
    rw [chunk_size_eq hH0 (by omega), remainder_eq hH0 (by omega)]
  have hend : end_ H W r = start H W r + H / W + (if r < H % W then 1 else 0) := by
    unfold end_
    rw [chunk_size_eq hH0 (by omega), remainder_eq hH0 (by omega)]
  have hprod1 : H / W * r ≤ H := by
    have : H / W * r ≤ start H W r := by
      rw [hstart]
      split_ifs <;> omega
    omega
  have hrows0 : 0 ≤ end_ H W r - start H W r := by omega
  have hrows1 : end_ H W r - start H W r ≤ 18918 := by omega
  have hmul0 : 0 ≤ (end_ H W r - start H W r) * (2 * H) := Int.mul_nonneg hrows0 (by omega)
  have hmul1 : (end_ H W r - start H W r) * (2 * H) ≤ 18918 * 37836 :=
    mul_le_mul hrows1 (by omega) (by omega) (by decide)
  have ec : c_div H W = H / W := chunk_size_eq hH0 (by omega)
  have em : c_mod H W = H % W := remainder_eq hH0 (by omega)
  have e1 : wrap_int (2 * H) = 2 * H := wrap_int_eq (by omega) (by omega)
  have e2 : wrap_int (H / W) = H / W := wrap_int_eq (by omega) (by omega)
  have e3 : wrap_int (H / W * r) = H / W * r := wrap_int_eq (by omega) (by omega)
  have e4 : wrap_int (H / W * r + (if r < H % W then r else H % W)) = start H W r := by
    rw [← hstart]
    exact wrap_int_eq (by omega) (by omega)
  have e5 : wrap_int (start H W r + H / W) = start H W r + H / W := by
    apply wrap_int_eq
    · omega
    · rw [hend] at b2
      split_ifs at b2 <;> omega
  have e6 : wrap_int (start H W r + H / W + (if r < H % W then 1 else 0)) = end_ H W r := by
    rw [← hend]
    exact wrap_int_eq (by omega) (by omega)
  have e7 : wrap_int (end_ H W r - start H W r) = end_ H W r - start H W r :=
    wrap_int_eq (by omega) (by omega)
  have e8 : wrap_int ((end_ H W r - start H W r) * (2 * H)) =
      (end_ H W r - start H W r) * (2 * H) := wrap_int_eq (by omega) (by omega)
  have e9 : wrap_int ((end_ H W r - start H W r) * (2 * H) * 3) =
      (end_ H W r - start H W r) * (2 * H) * 3 := wrap_int_eq (by omega) (by omega)
  have harea : area_int32 H W r = (end_ H W r - start H W r) * (2 * H) * 3 := by
    unfold area_int32
    simp only []
    rw [ec, em, e1, e2, e3, e4, e5, e6, e7, e8, e9]
  have hloc := (render_block_counts fm (2 * H) H (start H W r) (end_ H W r) (by omega) b1
    (by omega)).2.1
  refine ⟨harea, by rw [harea]; omega, by rw [harea]; omega, ?_, by decide, by decide⟩
  unfold main_render
  rw [e1, hloc, harea]

/-- Witness of C20: the largest height, `H = 18918`, with one process. -/
theorem area_no_overflow_witness :
    area_int32 18918 1 0 = (end_ 18918 1 0 - start 18918 1 0) * (2 * 18918) * 3 ∧
    (main_render fixed16 18918 0 1).local_i = area_int32 18918 1 0 :=
  have h := area_no_overflow fixed16 18918 1 0 (by decide) (by decide) (by decide)
    (by decide) (by decide)
  ⟨h.1, h.2.2.2.1⟩

end Fractal
